import Mathlib

/-!
Verification development for the agentic data-quality repair pipeline
(`backend/` of the repository).  The definitions below are a shallow
embedding of the Python source: cell values and suggested values are
modelled as strings (the datasets are CSV row sets), Python floats are
modelled as exact fractions (`PyNum` below), and `None` is modelled as
`Option.none`.
-/

namespace DQ

/-! ## Basic string helpers mirroring Python primitives -/

/-- Python `needle in hay` prefix test on character lists. -/
def hasPfx : List Char → List Char → Bool
  | [], _ => true
  | _ :: _, [] => false
  | a :: as, b :: bs => a = b && hasPfx as bs

/-- Python substring containment (`needle in hay`) on character lists. -/
def subList (n : List Char) : List Char → Bool
  | [] => n.isEmpty
  | c :: t => hasPfx n (c :: t) || subList n t

/-- Python `needle in hay` on strings. -/
def strContains (hay needle : String) : Bool :=
  subList needle.data hay.data

/-- ASCII lowercase of a character. -/
def charLower (c : Char) : Char :=
  if 65 ≤ c.toNat ∧ c.toNat ≤ 90 then Char.ofNat (c.toNat + 32) else c

/-- ASCII uppercase of a character. -/
def charUpper (c : Char) : Char :=
  if 97 ≤ c.toNat ∧ c.toNat ≤ 122 then Char.ofNat (c.toNat - 32) else c

/-- Python `str.strip()` (whitespace on both ends). -/
def pyStrip (s : String) : String :=
  ⟨((s.data.dropWhile Char.isWhitespace).reverse.dropWhile Char.isWhitespace).reverse⟩

/-- Python `str.lower()` (ASCII data in this code base). -/
def pyLower (s : String) : String := ⟨s.data.map charLower⟩

/-- Python `str.upper()` (ASCII data in this code base). -/
def pyUpper (s : String) : String := ⟨s.data.map charUpper⟩

/-- Python `str.startswith`. -/
def pyStartsWith (s pfx : String) : Bool := hasPfx pfx.data s.data

/-- Replace every occurrence of `pat` (non-empty), fuelled by the input
length so that the kernel can evaluate it. -/
def replaceAllGo (pat rep : List Char) : ℕ → List Char → List Char
  | 0, cs => cs
  | _ + 1, [] => []
  | fuel + 1, c :: t =>
      if hasPfx pat (c :: t) then
        rep ++ replaceAllGo pat rep fuel (t.drop (pat.length - 1))
      else c :: replaceAllGo pat rep fuel t

/-- Python `str.replace(pat, rep)` for a non-empty pattern. -/
def pyReplace (s pat rep : String) : String :=
  ⟨replaceAllGo pat.data rep.data s.data.length s.data⟩

/-- Numeric value of an ASCII digit character. -/
def digitVal (c : Char) : ℕ := c.toNat - 48

/-- Natural number denoted by a digit list (most significant first). -/
def natOfDigits (ds : List Char) : ℕ :=
  ds.foldl (fun a c => a * 10 + digitVal c) 0

/-! ## An executable exact-number model of Python floats

Every numeric value of the embedded code (measurements, confidences,
thresholds) is an exact decimal, so Python floats are modelled as exact
fractions.  The fraction is kept unnormalized (numerator and positive
denominator, no gcd) so that the kernel can evaluate every definition; the
`val` view into `ℚ` gives the mathematical value. -/

/-- An unnormalized fraction with positive denominator. -/
structure PyNum where
  num : ℤ
  den : ℤ
  deriving DecidableEq, Repr

namespace PyNum

/-- The rational value of the fraction. -/
def val (a : PyNum) : ℚ := (a.num : ℚ) / (a.den : ℚ)

instance : OfNat PyNum n := ⟨⟨n, 1⟩⟩

instance : NatCast PyNum := ⟨fun n => ⟨n, 1⟩⟩

instance : Add PyNum := ⟨fun a b => ⟨a.num * b.den + b.num * a.den, a.den * b.den⟩⟩

instance : Mul PyNum := ⟨fun a b => ⟨a.num * b.num, a.den * b.den⟩⟩

instance : Neg PyNum := ⟨fun a => ⟨-a.num, a.den⟩⟩

instance : Sub PyNum := ⟨fun a b => a + -b⟩

/-- Reciprocal, keeping the denominator positive (division by zero is
unreachable in the embedded code and maps to zero). -/
def inv (a : PyNum) : PyNum :=
  if a.num < 0 then ⟨-a.den, -a.num⟩
  else if a.num = 0 then ⟨0, 1⟩
  else ⟨a.den, a.num⟩

instance : Div PyNum := ⟨fun a b => a * inv b⟩

instance : LE PyNum := ⟨fun a b => a.num * b.den ≤ b.num * a.den⟩

instance : LT PyNum := ⟨fun a b => a.num * b.den < b.num * a.den⟩

instance (a b : PyNum) : Decidable (a ≤ b) :=
  inferInstanceAs (Decidable (a.num * b.den ≤ b.num * a.den))

instance (a b : PyNum) : Decidable (a < b) :=
  inferInstanceAs (Decidable (a.num * b.den < b.num * a.den))

/-- Floor (the denominator is positive by construction). -/
def floor (a : PyNum) : ℤ := Int.fdiv a.num a.den

/-- Absolute value. -/
def abs (a : PyNum) : PyNum := ⟨|a.num|, a.den⟩

end PyNum

/-- A fraction literal (used to write expected values in theorems). -/
def pq (n d : ℤ) : PyNum := ⟨n, d⟩

/-- Unsigned Python float literal: `digits`, `digits.digits`, `digits.` or
`.digits`; returns `none` when the string is not entirely such a literal. -/
def parseUnsignedFloat (cs : List Char) : Option PyNum :=
  let ip := cs.takeWhile Char.isDigit
  let r := cs.dropWhile Char.isDigit
  match r with
  | '.' :: r2 =>
      let fp := r2.takeWhile Char.isDigit
      let r3 := r2.dropWhile Char.isDigit
      if r3 = [] ∧ (ip ≠ [] ∨ fp ≠ []) then
        some ⟨natOfDigits ip * 10 ^ fp.length + natOfDigits fp, 10 ^ fp.length⟩
      else none
  | [] => if ip ≠ [] then some (natOfDigits ip : PyNum) else none
  | _ => none

/-- Python `float(s)`: optional surrounding whitespace, optional sign, then a
plain decimal literal.  (`inf`/`nan`/exponent forms never reach the embedded
call sites and are modelled as failures.) -/
def pyFloat (s : String) : Option PyNum :=
  match (pyStrip s).data with
  | '+' :: r => parseUnsignedFloat r
  | '-' :: r => (parseUnsignedFloat r).map Neg.neg
  | r => parseUnsignedFloat r

/-- Round to the nearest integer, ties to even (the rounding used by Python
`format` on exact decimal values; `r` is the nonnegative remainder). -/
def roundHalfEven (q : PyNum) : ℤ :=
  let f := q.floor
  let r := q.num - f * q.den
  if 2 * r > q.den then f + 1
  else if 2 * r < q.den then f
  else if f % 2 = 0 then f else f + 1

/-- Two-digit rendering of `n < 100`. -/
def twoDigits (n : ℕ) : String :=
  if n < 10 then "0" ++ toString n else toString n

/-- Python `f"{x:.2f}"` on an exact value. -/
def formatQ2 (q : PyNum) : String :=
  let sign := if q.num < 0 then "-" else ""
  let n := (roundHalfEven (q.abs * 100)).toNat
  sign ++ toString (n / 100) ++ "." ++ twoDigits (n % 100)

/-! ## `utils/data_cleaning.py` : `convert_units` -/

/-- Conversion factor to centimetres from `convert_units` (its only table):
`cm` 1, `m` 100, `in` 2.54, `ft` 30.48. -/
def toCmFactor : String → Option PyNum
  | "cm" => some ⟨1, 1⟩
  | "m" => some ⟨100, 1⟩
  | "in" => some ⟨254, 100⟩
  | "ft" => some ⟨3048, 100⟩
  | _ => none

/-- `convert_units(value, from_unit, to_unit)`: convert via the cm base
table, returning `none` when either unit is missing from the table. -/
def convert_units (value : PyNum) (fromUnit toUnit : String) : Option PyNum :=
  match toCmFactor fromUnit with
  | none => none
  | some f =>
      match toCmFactor toUnit with
      | none => none
      | some t => some (value * f / t)

/-! ## `utils/data_cleaning.py` : fuzzy category matching -/

/-- `_simple_similarity(s1, s2)`: the count of characters of `s1` (with
multiplicity) that occur in `s2`, divided by the longer length. -/
def simpleSimilarity (s1 s2 : String) : PyNum :=
  if s1 = "" ∨ s2 = "" then 0
  else
    let common := (s1.data.filter (fun c => s2.data.contains c)).length
    let maxLen := max s1.length s2.length
    if maxLen = 0 then 1 else (common : PyNum) / (maxLen : PyNum)

/-- First category whose lowercase form equals the lowercased, stripped
value (the exact-match loop of `fuzzy_match_category`). -/
def exactCategoryMatch (valueLower : String) : List String → Option String
  | [] => none
  | cat :: rest =>
      if pyLower cat = valueLower then some cat else exactCategoryMatch valueLower rest

/-- Best-scoring fuzzy candidate: Python keeps a running best and replaces it
only on a strictly larger similarity that also meets the threshold. -/
def bestFuzzy (valueLower : String) (threshold : PyNum) :
    List String → Option String × PyNum → Option String × PyNum
  | [], acc => acc
  | cat :: rest, (best, bestScore) =>
      let s := simpleSimilarity valueLower (pyLower cat)
      if s > bestScore ∧ s ≥ threshold then bestFuzzy valueLower threshold rest (some cat, s)
      else bestFuzzy valueLower threshold rest (best, bestScore)

/-- `fuzzy_match_category(value, allowed_categories, threshold)`. -/
def fuzzy_match_category (value : String) (cats : List String) (threshold : PyNum) :
    Option (String × PyNum) :=
  if value = "" ∨ cats = [] then none
  else
    let valueLower := pyStrip (pyLower value)
    match exactCategoryMatch valueLower cats with
    | some cat => some (cat, 1)
    | none =>
        match bestFuzzy valueLower threshold cats (none, 0) with
        | (some best, score) => if best ≠ "" then some (best, score) else none
        | (none, _) => none

/-- The default of the `threshold` parameter in the source signature. -/
def fuzzyDefaultThreshold : PyNum := ⟨7, 10⟩

/-- `fuzzy_match_category` invoked without a threshold argument. -/
def fuzzy_match_categoryD (value : String) (cats : List String) : Option (String × PyNum) :=
  fuzzy_match_category value cats fuzzyDefaultThreshold

/-! ## `agents/base_agent.py` : issue ids and agent categories -/

/-- Python word character (`\w`): letters, digits, underscore. -/
def isWordChar (c : Char) : Bool := c.isAlphanum || c = '_'

/-- Python `str.title()`: a cased character that follows a non-cased one is
uppercased, every other cased character is lowercased. -/
def pyTitleGo : Bool → List Char → List Char
  | _, [] => []
  | prevAlpha, c :: t =>
      if c.isAlpha then
        (if prevAlpha then charLower c else charUpper c) :: pyTitleGo true t
      else
        c :: pyTitleGo false t

/-- Python `str.title()` on ASCII strings. -/
def pyTitle (s : String) : String := ⟨pyTitleGo false s.data⟩

/-- `BaseAgent.__init__`: the category is the class name with every
occurrence of `"Agent"` removed, passed through `str.title()`. -/
def agentCategoryOf (className : String) : String :=
  pyTitle (pyReplace className "Agent" "")

/-- The third segment of an issue id: Python `row_id or 'dataset'`
stringifies the row id but falls back to `'dataset'` on `None` — and also on
the falsy integer `0`. -/
def rowSegment : Option ℤ → String
  | some n => if n = 0 then "dataset" else toString n
  | none => "dataset"

/-- `BaseAgent._create_issue` id construction; `uid` stands for the first 8
characters of the freshly drawn UUID (external randomness, passed in). -/
def issueId (category issueType : String) (rowId : Option ℤ) (column uid : String) : String :=
  category ++ "_" ++ issueType ++ "_" ++ rowSegment rowId ++ "_" ++ column ++ "_" ++ uid

/-- The ten detector classes instantiated by the orchestrator, with the two
explicit `self.category` overrides from `company_validation.py` and
`geographic_enrichment.py` applied after `BaseAgent.__init__`. -/
def agentCategories : List String :=
  [agentCategoryOf "FormattingAgent",
   agentCategoryOf "UnitsAgent",
   agentCategoryOf "CategoricalAgent",
   agentCategoryOf "ImputationAgent",
   agentCategoryOf "SemanticAgent",
   agentCategoryOf "LogicAgent",
   agentCategoryOf "ExtractionAgent",
   agentCategoryOf "EmailValidationAgent",
   "CompanyValidation",
   "GeographicEnrichment"]

/-! ## `utils/data_cleaning.py` : `parse_units`

The regular-expression patterns of `parse_units` are embedded as prefix
matchers over character lists, combined with a leftmost-position search
(the semantics of `re.search`). -/

/-- `\s*` : drop leading whitespace. -/
def wsStar (cs : List Char) : List Char := cs.dropWhile Char.isWhitespace

/-- `\s+` : at least one whitespace character. -/
def wsPlus (cs : List Char) : Option (List Char) :=
  match cs with
  | c :: t => if c.isWhitespace then some (t.dropWhile Char.isWhitespace) else none
  | [] => none

/-- Case-insensitive literal match of `lit` as a prefix of `cs`. -/
def litCI : List Char → List Char → Option (List Char)
  | [], cs => some cs
  | _ :: _, [] => none
  | l :: ls, c :: cs => if charLower l = charLower c then litCI ls cs else none

/-- `(?:\b|$)` after a word character: end of input or a non-word character
next.  (`(?:\b|$|\s)` is the same condition, whitespace being non-word.) -/
def boundary : List Char → Bool
  | [] => true
  | c :: _ => !isWordChar c

/-- `(?:es?|s?)`-style optional `s` followed by a word boundary, as in
`inches?(?:\b|$)` and `meters?(?:\b|$)` after the mandatory stem. -/
def optSBoundary : List Char → Bool
  | [] => true
  | c :: t => ((c = 's' || c = 'S') && boundary t) || boundary (c :: t)

/-- `(\d+\.?\d*)` : greedy number group, returned as the rational that
Python `float` assigns to the matched text. -/
def matchNum (cs : List Char) : Option (PyNum × List Char) :=
  let ip := cs.takeWhile Char.isDigit
  let r := cs.dropWhile Char.isDigit
  if ip = [] then none
  else
    match r with
    | '.' :: r2 =>
        let fp := r2.takeWhile Char.isDigit
        some (⟨natOfDigits ip * 10 ^ fp.length + natOfDigits fp, 10 ^ fp.length⟩,
              r2.dropWhile Char.isDigit)
    | _ => some ((natOfDigits ip : PyNum), r)

/-- Leftmost-match search: try the prefix matcher at every start position. -/
def searchP {α : Type} (m : List Char → Option α) : List Char → Option α
  | [] => m []
  | c :: t =>
      match m (c :: t) with
      | some r => some r
      | none => searchP m t

/-- ASCII apostrophe. -/
def aposC : Char := Char.ofNat 39

/-- Right single quotation mark (U+2019). -/
def rsquoC : Char := Char.ofNat 8217

/-- ASCII double quote. -/
def dquoC : Char := Char.ofNat 34

/-- Right double quotation mark (U+201D). -/
def rdquoC : Char := Char.ofNat 8221

/-- Pattern `(\d+\.?\d*)\s*ft\s*(\d+\.?\d*)\s*in(?:\b|$)`. -/
def pFtIn1 (cs : List Char) : Option (PyNum × PyNum) := do
  let (f, r1) ← matchNum cs
  let r2 ← litCI ['f', 't'] (wsStar r1)
  let (i, r3) ← matchNum (wsStar r2)
  let r4 ← litCI ['i', 'n'] (wsStar r3)
  if boundary r4 then some (f, i) else none

/-- Pattern `(\d+\.?\d*)['’]\s*(\d+\.?\d*)["”]`. -/
def pFtIn2 (cs : List Char) : Option (PyNum × PyNum) := do
  let (f, r1) ← matchNum cs
  match r1 with
  | c :: t =>
      if c = aposC || c = rsquoC then do
        let (i, r3) ← matchNum (wsStar t)
        match r3 with
        | d :: _ => if d = dquoC || d = rdquoC then some (f, i) else none
        | [] => none
      else none
  | [] => none

/-- Pattern `(\d+\.?\d*)['’]\s*(\d+\.?\d*)(?:\b|$)`. -/
def pFtIn3 (cs : List Char) : Option (PyNum × PyNum) := do
  let (f, r1) ← matchNum cs
  match r1 with
  | c :: t =>
      if c = aposC || c = rsquoC then do
        let (i, r3) ← matchNum (wsStar t)
        if boundary r3 then some (f, i) else none
      else none
  | [] => none

/-- Pattern `(\d+\.?\d*)\s*feet\s*(\d+\.?\d*)\s*inches?(?:\b|$)`. -/
def pFtIn4 (cs : List Char) : Option (PyNum × PyNum) := do
  let (f, r1) ← matchNum cs
  let r2 ← litCI ['f', 'e', 'e', 't'] (wsStar r1)
  let (i, r3) ← matchNum (wsStar r2)
  let r4 ← litCI ['i', 'n', 'c', 'h', 'e'] (wsStar r3)
  if optSBoundary r4 then some (f, i) else none

/-- Anchored pattern `^(\d)\s+(\d{1,2})$` (and its `\s*$` variant when
`trailingWs` is true): implied feet-and-inches like `"5 8"`. -/
def pFtInImplied (trailingWs : Bool) (cs : List Char) : Option (PyNum × PyNum) :=
  match cs with
  | c :: t =>
      if c.isDigit then
        match wsPlus t with
        | some r =>
            let ds := r.takeWhile Char.isDigit
            let rest := r.dropWhile Char.isDigit
            let restOk := if trailingWs then (rest.dropWhile Char.isWhitespace) = [] else rest = []
            if (ds.length = 1 ∨ ds.length = 2) ∧ restOk then
              some ((digitVal c : PyNum), (natOfDigits ds : PyNum))
            else none
        | none => none
      else none
  | [] => none

/-- Single-unit pattern `(\d+\.?\d*)\s*LIT` followed by the given boundary
test; returns the numeric group. -/
def pSingle (lit : List Char) (useOptS : Bool) (cs : List Char) : Option PyNum := do
  let (v, r1) ← matchNum cs
  let r2 ← litCI lit (wsStar r1)
  if (if useOptS then optSBoundary r2 else boundary r2) then some v else none

/-- Feet/inches validation and conversion from the ft-in branches of
`parse_units`: feet must lie in 3–8 and inches in 0–11, the result is the
total length in centimetres. -/
def ftInResult (f i conf : PyNum) : Option (PyNum × String × PyNum) :=
  if 3 ≤ f ∧ f ≤ 8 ∧ 0 ≤ i ∧ i ≤ 11 then
    some ((f * 12 + i) * (⟨254, 100⟩ : PyNum), "cm", conf)
  else none

/-- `parse_units(value_string)`: try each pattern in source order; a
feet-inches match with out-of-range components falls through to the next
pattern (`continue`). -/
def parse_units (s : String) : Option (PyNum × String × PyNum) :=
  if s = "" then none
  else
    let cs := s.data
    ((searchP pFtIn1 cs).bind fun (f, i) => ftInResult f i (pq 9 10)) <|>
    ((searchP pFtIn2 cs).bind fun (f, i) => ftInResult f i (pq 9 10)) <|>
    ((searchP pFtIn3 cs).bind fun (f, i) => ftInResult f i (pq 9 10)) <|>
    ((searchP pFtIn4 cs).bind fun (f, i) => ftInResult f i (pq 9 10)) <|>
    ((pFtInImplied false cs).bind fun (f, i) => ftInResult f i (pq 75 100)) <|>
    ((pFtInImplied true cs).bind fun (f, i) => ftInResult f i (pq 75 100)) <|>
    ((searchP (pSingle ['m', 'e', 't', 'e', 'r'] true) cs).map fun v => (v, "m", pq 85 100)) <|>
    ((searchP (pSingle ['i', 'n', 'c', 'h', 'e'] true) cs).map fun v => (v, "in", pq 85 100)) <|>
    ((searchP (pSingle ['f', 'e', 'e', 't'] false) cs).map fun v => (v, "ft", pq 85 100)) <|>
    ((searchP (pSingle ['c', 'm'] false) cs).map fun v => (v, "cm", pq 85 100)) <|>
    ((searchP (pSingle ['m'] false) cs).map fun v => (v, "m", pq 85 100)) <|>
    ((searchP (pSingle ['i', 'n'] false) cs).map fun v => (v, "in", pq 85 100)) <|>
    ((searchP (pSingle ['f', 't'] false) cs).map fun v => (v, "ft", pq 85 100))

/-! ## `main.py` : `apply_fixes`

The loaded CSV is modelled as a rectangular table of optional strings
(`none` stands for a missing cell, which stringifies to a value that neither
parses as units nor as digits, so the unit pass skips it exactly as the
Python code skips `NaN`). -/

/-- A cell of the loaded dataframe. -/
abbrev Cell := Option String

/-- The dataframe: a fixed column list and one cell list per row. -/
structure Df where
  cols : List String
  rows : List (List Cell)
  deriving DecidableEq, Repr

/-- `df.at[r, c]` (guarded by the membership checks at every call site). -/
def dfGet (df : Df) (r : ℕ) (c : String) : Cell :=
  (df.rows.getD r []).getD (df.cols.indexOf c) none

/-- `df.at[r, c] = v`. -/
def dfSet (df : Df) (r : ℕ) (c : String) (v : Cell) : Df :=
  { df with rows := df.rows.set r ((df.rows.getD r []).set (df.cols.indexOf c) v) }

/-- A selected issue as consumed by `apply_fixes` (the fields it reads).
`suggested_value` reaches the applier JSON-decoded; the values produced by
the detectors are strings or `null`. -/
structure Issue where
  rowId : Option ℤ
  column : Option String
  suggestedValue : Option String
  issueType : String
  deriving DecidableEq, Repr

/-- The `changed_cells` dictionary: `(row, column) → (old, new)`. -/
abbrev Changed := List ((ℕ × String) × (String × String))

/-- Dictionary insert-or-overwrite keeping first-insertion order. -/
def upsert (k : ℕ × String) (v : String × String) : Changed → Changed
  | [] => [(k, v)]
  | (k2, v2) :: t => if k2 = k then (k, v) :: t else (k2, v2) :: upsert k v t

/-- Python `str(cell)` for a dataframe cell (`None` prints as `"None"`). -/
def cellStr : Cell → String
  | none => "None"
  | some s => s

/-- The guard `if value and str(value).strip():`. -/
def cellTruthyStripped : Cell → Bool
  | none => false
  | some s => pyStrip s ≠ ""

/-- `value_str.replace('.', '').replace('-', '').replace(' ', '').isdigit()`. -/
def isDigitsAfterRemovals (s : String) : Bool :=
  let t := s.data.filter (fun c => !(c = '.' || c = '-' || c = ' '))
  !t.isEmpty && t.all Char.isDigit

/-- First loop of `apply_fixes`: collect `columns_to_standardize` from the
selected `ScaleMismatch` issues — the first issue naming a column fixes that
column's target unit, parsed out of its `suggested_value`. -/
def scaleTargets (issues : List Issue) : List (String × String) :=
  issues.foldl
    (fun acc issue =>
      if issue.issueType = "ScaleMismatch" then
        match issue.column, issue.suggestedValue with
        | some col, some sv =>
            if col ≠ "" ∧ sv ≠ "" then
              match parse_units sv with
              | some (_, unit, _) =>
                  if acc.lookup col = none then acc ++ [(col, unit)] else acc
              | none => acc
            else acc
        | _, _ => acc
      else acc)
    []

/-- `columns_to_standardize` after also merging the request's
`unit_preferences` (which never override an issue-derived target). -/
def standardizeTargets (issues : List Issue) (prefs : List (String × String)) :
    List (String × String) :=
  prefs.foldl
    (fun acc (p : String × String) =>
      if acc.lookup p.1 = none then acc ++ [p] else acc)
    (scaleTargets issues)

/-- New value for one cell of a column being standardized to `target`, or
`none` when the cell is skipped: parsed units are reformatted or converted,
bare numbers are assumed to already carry the target unit. -/
def unitNewValue (target : String) (cell : Cell) : Option String :=
  if cellTruthyStripped cell then
    let vs := pyStrip (cellStr cell)
    match parse_units vs with
    | some (num, cur, _) =>
        if cur = target then some (formatQ2 num ++ " " ++ target)
        else
          match convert_units num cur target with
          | some c => some (formatQ2 c ++ " " ++ target)
          | none => none
    | none =>
        if isDigitsAfterRemovals vs then
          match pyFloat vs with
          | some q => some (formatQ2 q ++ " " ++ target)
          | none => none
        else none
  else none

/-- One row of the wholesale standardization of a column: write the cell
and record the change only when the new text differs from the original
(`df_original`) value. -/
def stdCellStep (df0 : Df) (col target : String) (st : Df × Changed) (idx : ℕ) :
    Df × Changed :=
  let value := dfGet st.1 idx col
  let oldValue := dfGet df0 idx col
  match unitNewValue target value with
  | some newv =>
      if pyStrip (cellStr oldValue) ≠ pyStrip newv then
        (dfSet st.1 idx col (some newv), upsert (idx, col) (cellStr oldValue, newv) st.2)
      else st
  | none => st

/-- Standardize every row of one column to `target`. -/
def stdColumn (df0 : Df) (col target : String) (st : Df × Changed) : Df × Changed :=
  (List.range st.1.rows.length).foldl (stdCellStep df0 col target) st

/-- The wholesale unit-standardization pass over all targeted columns. -/
def applyUnitPass (df0 : Df) (targets : List (String × String)) : Df × Changed :=
  targets.foldl
    (fun st (p : String × String) =>
      if st.1.cols.contains p.1 then stdColumn df0 p.1 p.2 st else st)
    (df0, [])

/-- The personal-name keywords of the protected-column check. -/
def nameKeywords : List String :=
  ["firstname", "first_name", "lastname", "last_name",
   "fullname", "full_name", "username", "user_name",
   "name", "person", "customer", "employee", "contact"]

/-- The geographic keywords of the protected-column check. -/
def cityKeywords : List String :=
  ["city", "town", "location", "place"]

/-- `is_name_column`: lowercased column name contains a name keyword. -/
def isNameColumn (c : String) : Bool :=
  nameKeywords.any (fun kw => strContains (pyLower c) kw)

/-- `is_city_column`: lowercased column name contains a geographic keyword. -/
def isCityColumn (c : String) : Bool :=
  cityKeywords.any (fun kw => strContains (pyLower c) kw)

/-- A column skipped by the non-unit fix loop. -/
def isProtectedColumn (c : String) : Bool :=
  isNameColumn c || isCityColumn c

/-- `suggested_value is None or str(suggested_value).lower() in
['none', 'null', '']`. -/
def suggestedIsNull : Option String → Bool
  | none => true
  | some s => ["none", "null", ""].contains (pyLower s)

/-- One iteration of the non-unit fix loop of `apply_fixes`; the state is
the dataframe, the change map and the `fixed_cells` set. -/
def applyIssueStep (st : Df × Changed × List (ℕ × String)) (issue : Issue) :
    Df × Changed × List (ℕ × String) :=
  match issue.rowId, issue.column with
  | some r, some col =>
      if !st.1.cols.contains col then st
      else if r < 0 ∨ (st.1.rows.length : ℤ) ≤ r then st
      else if issue.issueType = "ScaleMismatch" then st
      else if st.2.2.contains (r.toNat, col) then st
      else if isNameColumn col then st
      else if isCityColumn col then st
      else if suggestedIsNull issue.suggestedValue then
        (dfSet st.1 r.toNat col none,
         upsert (r.toNat, col) (cellStr (dfGet st.1 r.toNat col), "null") st.2.1,
         (r.toNat, col) :: st.2.2)
      else
        match issue.suggestedValue with
        | some s =>
            if s ≠ "" then
              (dfSet st.1 r.toNat col (some s),
               upsert (r.toNat, col) (cellStr (dfGet st.1 r.toNat col), s) st.2.1,
               (r.toNat, col) :: st.2.2)
            else st
        | none => st
  | _, _ => st

/-- The full non-unit fix loop. -/
def applyIssueLoop (issues : List Issue) (st : Df × Changed × List (ℕ × String)) :
    Df × Changed × List (ℕ × String) :=
  issues.foldl applyIssueStep st

/-- `apply_fixes`: wholesale unit standardization first, then the per-issue
fix loop; returns the repaired dataframe and the change map. -/
def apply_fixes (df0 : Df) (selectedIssues : List Issue)
    (unitPrefs : List (String × String)) : Df × Changed :=
  let st1 := applyUnitPass df0 (standardizeTargets selectedIssues unitPrefs)
  let st2 := applyIssueLoop selectedIssues (st1.1, st1.2, [])
  (st2.1, st2.2.1)

/-! ## `agents/data_analyzer.py` : column type inference

A dataset row as the agents see it: an association list from column name
to optional string value. -/

/-- One dataset row for the detector agents. -/
abbrev Row := List (String × Cell)

/-- `row.get(col)` (missing key and `None` value both give `none`). -/
def rowGet (row : Row) (col : String) : Cell :=
  match row.lookup col with
  | some c => c
  | none => none

/-- `str(row.get(col, ''))`: a present `None` prints as `"None"`, a missing
key as the empty-string default. -/
def rowStr (row : Row) (col : String) : String :=
  match row.lookup col with
  | some (some s) => s
  | some none => "None"
  | none => ""

/-- The column list of the dataset (`dataset_rows[0].keys()`). -/
def dsCols (rows : List Row) : List String :=
  match rows with
  | [] => []
  | r :: _ => r.map Prod.fst

/-- Character class `[a-zA-Z0-9.-]` of the email domain pattern. -/
def emailClassChar (c : Char) : Bool :=
  c.isAlphanum || c = '.' || c = '-'

/-- `\.[a-zA-Z]{2,}` at the current position. -/
def dotAlpha2 : List Char → Bool
  | '.' :: a :: b :: _ => a.isAlpha && b.isAlpha
  | _ => false

/-- After one or more domain-class characters, look for `\.[a-zA-Z]{2,}`
(with the backtracking the regex engine performs). -/
def emailRest : List Char → Bool
  | [] => false
  | c :: t => dotAlpha2 (c :: t) || (emailClassChar c && emailRest t)

/-- `re.search(r'@[a-zA-Z0-9.-]+\.[a-zA-Z]{2,}', v)`. -/
def emailSearch : List Char → Bool
  | [] => false
  | '@' :: t =>
      (match t with
       | c :: t2 => emailClassChar c && emailRest t2
       | [] => false) || emailSearch t
  | _ :: t => emailSearch t

/-- `'@' in v and re.search(...)` — the per-value email test. -/
def emailLike (v : String) : Bool :=
  strContains v "@" && emailSearch v.data

/-- Does the string contain a run of at least `k` consecutive digits
(`re.search(r'\+?\d{10,}')` with the optional plus)? -/
def hasDigitRun (k : ℕ) : List Char → ℕ → Bool
  | [], cnt => k ≤ cnt
  | c :: t, cnt =>
      if c.isDigit then hasDigitRun k t (cnt + 1)
      else k ≤ cnt || hasDigitRun k t 0

/-- The per-value phone test of the analyzer: any of `\+?\d{10,}`, `\+91`,
`\+1` found in the value. -/
def phoneLike (v : String) : Bool :=
  hasDigitRun 10 v.data 0 || strContains v "+91" || strContains v "+1"

/-- Consume exactly `n` digits. -/
def digitsN : ℕ → List Char → Option (List Char)
  | 0, cs => some cs
  | n + 1, c :: t => if c.isDigit then digitsN n t else none
  | _ + 1, [] => none

/-- `\d{a}SEP\d{b}SEP\d{c}` at the current position. -/
def datePatAt (a : ℕ) (sep : Char) (b c : ℕ) (cs : List Char) : Bool :=
  match digitsN a cs with
  | some (s1 :: r1) =>
      if s1 = sep then
        match digitsN b r1 with
        | some (s2 :: r2) => s2 = sep && (digitsN c r2).isSome
        | _ => false
      else false
  | _ => false

/-- Search a position predicate anywhere in the character list. -/
def searchB (p : List Char → Bool) : List Char → Bool
  | [] => p []
  | c :: t => p (c :: t) || searchB p t

/-- The per-value date test: any of `\d{4}-\d{2}-\d{2}`, `\d{2}/\d{2}/\d{4}`,
`\d{2}-\d{2}-\d{4}` found in the value. -/
def dateLike (v : String) : Bool :=
  searchB (datePatAt 4 '-' 2 2) v.data ||
  searchB (datePatAt 2 '/' 2 4) v.data ||
  searchB (datePatAt 2 '-' 2 4) v.data

/-- `re.match(r'^\d+\.?\d*$', v)`: an anchored plain number. -/
def numericLike (v : String) : Bool :=
  let cs := v.data
  let d := cs.takeWhile Char.isDigit
  let r := cs.dropWhile Char.isDigit
  !d.isEmpty &&
    (r.isEmpty ||
      (match r with
       | '.' :: fp => fp.all Char.isDigit
       | _ => false))

/-- The sequential type checks of `analyze_column_types`: each check that
passes overwrites `analysis['type']`, so the last passing check decides.
The float thresholds `0.5/0.3/0.3/0.7` are compared exactly. -/
def inferTypeOfValues (values : List String) : String :=
  let n := values.length
  let t1 := if 2 * values.countP emailLike > n then "email" else "text"
  let t2 := if 10 * values.countP phoneLike > 3 * n then "phone" else t1
  let t3 := if 10 * values.countP dateLike > 3 * n then "date" else t2
  if 10 * values.countP numericLike > 7 * n then "numeric" else t3

/-- The string-coerced, stripped, truthiness-filtered values of a column
over the contiguous 1000-row sample. -/
def columnValues (rows : List Row) (col : String) : List String :=
  (rows.take 1000).filterMap fun row =>
    match rowGet row col with
    | some s => if s ≠ "" then some (pyStrip (cellStr (some s))) else none
    | none => none

/-- `analysis['type']` for one column; `none` when the column has no truthy
value in the sample (the source `continue`s and records no analysis). -/
def inferredColumnType (rows : List Row) (col : String) : Option String :=
  let values := columnValues rows col
  if values = [] then none else some (inferTypeOfValues values)

/-! ## `agents/units.py` : the Units agent (deterministic path, no LLM) -/

/-- An issue as emitted by a detector agent (the fields the claims are
about; `id`/`explanation` carry fresh randomness and free text and are
modelled by `issueId` separately). -/
structure AIssue where
  rowId : Option ℤ
  column : String
  issueType : String
  dirtyValue : String
  suggestedValue : Option String
  confidence : PyNum
  deriving DecidableEq, Repr

/-- The measurement-column keywords of the Units agent. -/
def measurementKeywords : List String :=
  ["height", "weight", "length", "width", "distance", "size", "measurement"]

/-- Columns the Units agent treats as measurements. -/
def measurementColumns (rows : List Row) : List String :=
  (dsCols rows).filter fun col =>
    measurementKeywords.any fun kw => strContains (pyLower col) kw

/-- Count the units found by `parse_units` over the 1000-row sample of a
column, in first-occurrence order (the `units_found` dict). -/
def unitsFound (rows : List Row) (col : String) : List (String × ℕ) :=
  (rows.take 1000).foldl
    (fun acc row =>
      match rowGet row col with
      | some s =>
          if s ≠ "" then
            match parse_units (cellStr (some s)) with
            | some (_, unit, _) =>
                match acc.lookup unit with
                | some k => acc.map fun p => if p.1 = unit then (p.1, k + 1) else p
                | none => acc ++ [(unit, 1)]
            | none => acc
          else acc
      | none => acc)
    []

/-- Python `max(items, key=...)`: the first entry with the maximal count. -/
def mostCommonEntry : List (String × ℕ) → Option String
  | [] => none
  | (u, k) :: t =>
      some ((t.foldl (fun (best : String × ℕ) p => if p.2 > best.2 then p else best) (u, k)).1)

/-- The name-keyword default canonical unit (`kg` for weight columns, `cm`
otherwise), used only when no unit was observed in the column. -/
def defaultCanonicalUnit (col : String) : String :=
  if strContains (pyLower col) "weight" then "kg" else "cm"

/-- The canonical unit of a measurement column: the most frequent observed
unit, falling back to the keyword default. -/
def canonicalUnit (rows : List Row) (col : String) : String :=
  match mostCommonEntry (unitsFound rows col) with
  | some u => u
  | none => defaultCanonicalUnit col

/-- The per-cell check of the Units agent flagging loop: emit a
`ScaleMismatch` when the parsed unit differs from the canonical unit and the
conversion succeeds.  (The LLM branches for unparseable values are the
degraded no-LLM path and emit nothing.) -/
def unitsCellIssue (canon : String) (rowIdx : ℕ) (value : String) : Option AIssue :=
  if value ≠ "" ∧ pyStrip value ≠ "" then
    match parse_units value with
    | some (num, unit, conf) =>
        if unit ≠ canon then
          match convert_units num unit canon with
          | some converted =>
              some ⟨some rowIdx, "", "ScaleMismatch", value,
                    some (formatQ2 converted ++ " " ++ canon), conf⟩
          | none => none
        else none
    | none => none
  else none

/-- `UnitsAgent.run` without an LLM client: detect measurement columns,
compute each column's canonical unit, then flag every mismatching cell. -/
def unitsAgentRun (rows : List Row) : List AIssue :=
  let mcols := measurementColumns rows
  (rows.enum).flatMap fun (p : ℕ × Row) =>
    mcols.filterMap fun col =>
      match rowGet p.2 col with
      | some s =>
          (unitsCellIssue (canonicalUnit rows col) p.1 s).map
            fun i => { i with column := col }
      | none => none

/-! ## `utils/data_cleaning.py` : `parse_date` (dateutil modelled) -/

/-- Days in a month under the Gregorian leap rule. -/
def daysInMonth (y m : ℕ) : ℕ :=
  if m = 2 then
    if y % 4 = 0 ∧ (y % 100 ≠ 0 ∨ y % 400 = 0) then 29 else 28
  else if m = 4 ∨ m = 6 ∨ m = 9 ∨ m = 11 then 30
  else 31

/-- Zero-padded fixed-width decimal rendering (strftime `%Y`/`%m`/`%d`). -/
def padNum (w n : ℕ) : String :=
  let s := toString n
  if s.length < w then String.mk (List.replicate (w - s.length) '0') ++ s else s

/-- `parse_date(date_string)`.  The first branch calls the external
`dateutil` fuzzy parser; it is modelled on the unambiguous all-numeric
forms `YYYY-MM-DD` and `MM/DD/YYYY` with calendar-valid components, which
dateutil accepts and which `strftime('%Y-%m-%d')` renders back as ISO with
confidence 0.9.  Everything else is modelled as unparseable (`none`). -/
def parse_date (s : String) : Option (String × PyNum) :=
  if s = "" then none
  else
    match s.data with
    | [y1, y2, y3, y4, '-', m1, m2, '-', d1, d2] =>
        if [y1, y2, y3, y4, m1, m2, d1, d2].all Char.isDigit then
          let y := natOfDigits [y1, y2, y3, y4]
          let m := natOfDigits [m1, m2]
          let d := natOfDigits [d1, d2]
          if 1 ≤ m ∧ m ≤ 12 ∧ 1 ≤ d ∧ d ≤ daysInMonth y m then
            some (padNum 4 y ++ "-" ++ padNum 2 m ++ "-" ++ padNum 2 d, pq 9 10)
          else none
        else none
    | [m1, m2, '/', d1, d2, '/', y1, y2, y3, y4] =>
        if [m1, m2, d1, d2, y1, y2, y3, y4].all Char.isDigit then
          let y := natOfDigits [y1, y2, y3, y4]
          let m := natOfDigits [m1, m2]
          let d := natOfDigits [d1, d2]
          if 1 ≤ m ∧ m ≤ 12 ∧ 1 ≤ d ∧ d ≤ daysInMonth y m then
            some (padNum 4 y ++ "-" ++ padNum 2 m ++ "-" ++ padNum 2 d, pq 9 10)
          else none
        else none
    | _ => none

/-! ## `agents/logic.py` : the job-before-birth check (lines 114–140) -/

/-- Lexicographic code-point order on character lists (Python `str <`). -/
def lexLt : List Char → List Char → Bool
  | [], [] => false
  | [], _ :: _ => true
  | _ :: _, [] => false
  | a :: as, b :: bs =>
      if a.toNat < b.toNat then true
      else if b.toNat < a.toNat then false
      else lexLt as bs

/-- Python `a < b` on strings. -/
def strLt (a b : String) : Bool := lexLt a.data b.data

/-- The per-row job-before-birth check of `LogicAgent.run`: when both cells
are truthy and both parse, and the job-start ISO date sorts strictly below
the birth ISO date, emit a `TemporalParadox` on the job-start column with a
`null` suggestion and confidence 0.95. -/
def logicJobBirthIssue (birthCol jobCol : String) (rowIdx : ℕ) (row : Row) :
    Option AIssue :=
  match rowGet row birthCol, rowGet row jobCol with
  | some b, some j =>
      if b ≠ "" ∧ j ≠ "" then
        match parse_date b, parse_date j with
        | some bp, some jp =>
            if strLt jp.1 bp.1 then
              some ⟨some rowIdx, jobCol, "TemporalParadox", j, none, pq 95 100⟩
            else none
        | _, _ => none
      else none
  | _, _ => none

/-! ## `utils/data_cleaning.py` : phone normalization -/

/-- The country map of `detect_phone_country` (unknown truthy values fall
back to `'US'`). -/
def detectCountryMap (c : String) : String :=
  if c = "INDIA" ∨ c = "INDIAN" ∨ c = "IN" then "IN"
  else if c = "USA" ∨ c = "UNITED STATES" ∨ c = "US" then "US"
  else if c = "UK" ∨ c = "UNITED KINGDOM" ∨ c = "GB" then "GB"
  else "US"

/-- Keep digits and `+` (`re.sub(r'[^\d+]', '', s)`). -/
def phoneDigits (s : String) : List Char :=
  s.data.filter fun c => c.isDigit || c = '+'

/-- The digit-pattern fallback of `detect_phone_country`. -/
def detectFromDigits (phone : String) : String :=
  let digits := phoneDigits phone
  if hasPfx ['+', '9', '1'] digits || hasPfx ['9', '1'] digits then "IN"
  else if digits.length = 10 ∧ (digits.headD ' ') ∈ ['6', '7', '8', '9'] then "IN"
  else if hasPfx ['+', '1'] digits ||
          (hasPfx ['1'] digits && digits.length = 11) then "US"
  else "US"

/-- `detect_phone_country(phone_string, context)`: the context country wins
when present and truthy; otherwise pattern heuristics on the digits. -/
def detect_phone_country (phone : String) (ctxCountry : Option String) : String :=
  match ctxCountry with
  | some c =>
      let cu := pyUpper c
      if cu ≠ "" then detectCountryMap cu
      else detectFromDigits phone
  | none => detectFromDigits phone

/-- Last `n` characters (`s[-n:]` on a list already known longer). -/
def lastN (n : ℕ) (cs : List Char) : List Char :=
  cs.drop (cs.length - n)

/-- Python `str.zfill(n)`. -/
def zfill (n : ℕ) (cs : List Char) : List Char :=
  if cs.length < n then List.replicate (n - cs.length) '0' ++ cs else cs

/-- The country-prefix stripping of `normalize_phone`: remove a leading
`+91`/`+1`/`+` plus up to three digits, then a bare `91`/`1` prefix, then
leading zeros. -/
def stripCountryPfx (digits : List Char) : List Char :=
  let r1 :=
    if hasPfx ['+', '9', '1'] digits then digits.drop 3
    else if hasPfx ['+', '1'] digits then digits.drop 2
    else
      match digits with
      | '+' :: rest =>
          let lead := (rest.takeWhile Char.isDigit).take 3
          if lead.isEmpty then digits else rest.drop lead.length
      | _ => digits
  let r2 :=
    if hasPfx ['9', '1'] r1 ∧ 12 ≤ r1.length then r1.drop 2
    else if hasPfx ['1'] r1 ∧ r1.length = 11 then r1.drop 1
    else r1
  r2.dropWhile (· = '0')

/-- The US presentation format `+1 (XXX) XXX-XXXX`. -/
def usFormat (pd : List Char) : String :=
  "+1 (" ++ String.mk (pd.take 3) ++ ") " ++ String.mk ((pd.drop 3).take 3) ++
    "-" ++ String.mk ((pd.drop 6).take 4)

/-- The country-directed formatting block of `normalize_phone` (entered when
a non-empty country code is in hand). -/
def formatWithCountry (ccU : String) (raw : List Char) : Option (String × PyNum) :=
  if ccU = "IN" then
    if 10 ≤ raw.length then
      some ("+91 " ++ String.mk (if 10 < raw.length then lastN 10 raw else raw), pq 9 10)
    else if 8 ≤ raw.length then
      some ("+91 " ++ String.mk (zfill 10 raw), pq 8 10)
    else if 0 < raw.length then
      some ("+91 " ++ String.mk raw, pq 7 10)
    else none
  else if ccU = "US" then
    if 10 ≤ raw.length then
      some (usFormat (if 10 < raw.length then lastN 10 raw else raw), pq 9 10)
    else if 8 ≤ raw.length then
      some (usFormat (zfill 10 raw), pq 8 10)
    else if 0 < raw.length then
      some ("+1 " ++ String.mk raw, pq 7 10)
    else none
  else
    if 7 ≤ raw.length then some ("+" ++ ccU ++ " " ++ String.mk raw, pq 7 10)
    else if 0 < raw.length then some ("+" ++ ccU ++ " " ++ String.mk raw, pq 6 10)
    else none

/-- The trailing generic-international fallback of `normalize_phone`
(reached only when no country code was in hand). -/
def genericIntl (digits : List Char) : Option (String × PyNum) :=
  if hasPfx ['+'] digits then
    let in91 :=
      if hasPfx ['+', '9', '1'] digits then
        let rest := digits.drop 3
        if rest.length = 10 ∧ (rest.headD ' ') ∈ ['6', '7', '8', '9'] then
          some ("+91 " ++ String.mk rest, pq 9 10)
        else none
      else none
    match in91 with
    | some r => some r
    | none =>
        if 4 < digits.length then
          let detected := if 3 ≤ digits.length then (digits.drop 1).take 2 else (digits.drop 1).take 1
          let rest := if 3 < digits.length then digits.drop 3 else digits.drop 2
          if 7 ≤ rest.length then
            some ("+" ++ String.mk detected ++ " " ++ String.mk rest, pq 7 10)
          else some (String.mk digits, pq 7 10)
        else some (String.mk digits, pq 7 10)
  else none

/-- `normalize_phone(phone_string, country_code, context)` (the `ext`
substitution is a no-op because the digit filter has already removed all
letters). -/
def normalize_phone (phone : String) (countryCode : Option String)
    (ctxCountry : Option String) : Option (String × PyNum) :=
  if phone = "" then none
  else
    let cc0 := (countryCode.getD "")
    let cc := if cc0 = "" ∨ pyStrip cc0 = "" then detect_phone_country phone ctxCountry else cc0
    let digits := phoneDigits phone
    let raw := stripCountryPfx digits
    if cc ≠ "" ∧ pyStrip cc ≠ "" then
      let ccU := pyStrip (pyUpper cc)
      match formatWithCountry ccU raw with
      | some r => some r
      | none =>
          -- the forced-format warning block, then the generic fallback
          let forced :=
            if ccU = "IN" ∧ 0 < raw.length then
              some ("+91 " ++
                String.mk (if 10 ≤ raw.length then lastN 10 raw else zfill 10 raw), pq 7 10)
            else if ccU = "US" ∧ 0 < raw.length then
              let pd := if 10 ≤ raw.length then lastN 10 raw else zfill 10 raw
              some ((if pd.length = 10 then usFormat pd else "+1 " ++ String.mk pd), pq 7 10)
            else none
          match forced with
          | some r => some r
          | none => genericIntl digits
    else genericIntl digits

/-! ## `agents/data_analyzer.py` : `detect_phone_country_from_data` -/

/-- The country-name map of `detect_phone_country_from_data`. -/
def dataCountryMap (c : String) : Option String :=
  if c = "INDIA" ∨ c = "INDIAN" ∨ c = "IN" then some "IN"
  else if c = "USA" ∨ c = "UNITED STATES" ∨ c = "US" then some "US"
  else none

/-- Python `Counter.most_common(1)`: the first-encountered value with the
highest multiplicity, in first-occurrence order. -/
def mostCommonStr (xs : List String) : Option String :=
  mostCommonEntry
    (xs.foldl
      (fun acc x =>
        match acc.lookup x with
        | some k => acc.map fun p => if p.1 = x then (p.1, k + 1) else p
        | none => acc ++ [(x, 1)])
      [])

/-- Anchored `^91\d{10}` / `^1\d{10}` / `^\d{10}$` pattern tests. -/
def pfxThenDigits (pfx : List Char) (n : ℕ) (cs : List Char) : Bool :=
  hasPfx pfx cs && (digitsN n (cs.drop pfx.length)).isSome

/-- Exactly ten digits (`^\d{10}$`). -/
def exactlyTenDigits (cs : List Char) : Bool :=
  cs.length = 10 && cs.all Char.isDigit

/-- Does one row's phone value score for India (first matching pattern
breaks, on either the raw text or its digit filter)? -/
def scoresIN (phone : String) : Bool :=
  let d := phoneDigits phone
  strContains phone "+91" || subList ['+', '9', '1'] d ||
  pfxThenDigits ['9', '1'] 10 phone.data || pfxThenDigits ['9', '1'] 10 d ||
  exactlyTenDigits phone.data || exactlyTenDigits d

/-- Does one row's phone value score for the US? -/
def scoresUS (phone : String) : Bool :=
  let d := phoneDigits phone
  strContains phone "+1" || subList ['+', '1'] d ||
  pfxThenDigits ['1'] 10 phone.data || pfxThenDigits ['1'] 10 d

/-- `detect_phone_country_from_data(rows, phone_column, country_column)`. -/
def detect_phone_country_from_data (rows : List Row) (phoneCol : String)
    (countryCol : Option String) : String :=
  if rows = [] then "US"
  else
    let fromCountryCol :=
      match countryCol with
      | some cc =>
          let countries := rows.filterMap fun r =>
            match rowGet r cc with
            | some s => if s ≠ "" then some (pyUpper (cellStr (some s))) else none
            | none => none
          match mostCommonStr countries with
          | some mc => dataCountryMap mc
          | none => none
      | none => none
    match fromCountryCol with
    | some code => code
    | none =>
        let sample := rows.take 1000
        let inScore := sample.countP fun r => scoresIN (pyStrip (rowStr r phoneCol))
        let usScore := sample.countP fun r => scoresUS (pyStrip (rowStr r phoneCol))
        if inScore > usScore then "IN" else "US"

/-! ## `agents/formatting.py` : phone normalization (lines 117–231, no LLM) -/

/-- The row-context build of the phone loop: the last `country`-named key
sets the context country, `city`/`state` keys fill the other slots (an
`elif` chain, falsy values store `None`). -/
def buildPhoneContext (row : Row) : Option String × Option String × Option String :=
  row.foldl
    (fun (acc : Option String × Option String × Option String) (kv : String × Cell) =>
      let kl := pyLower kv.1
      let v : Option String :=
        match kv.2 with
        | some s => if s ≠ "" then some s else none
        | none => none
      if strContains kl "country" then (v, acc.2.1, acc.2.2)
      else if strContains kl "city" then (acc.1, v, acc.2.2)
      else if strContains kl "state" then (acc.1, acc.2.1, v)
      else acc)
    (none, none, none)

/-- The step-1 country-name mapping of the phone loop. -/
def mapCountryName (s : String) : Option String :=
  let str := pyStrip s
  let l := pyLower str
  if ["united states", "usa", "us", "united states of america",
      "u.s.", "u.s.a."].contains l then some "US"
  else if ["india", "ind", "bharat", "in", "indian"].contains l then some "IN"
  else if str.length = 2 ∧ str.data.all Char.isAlpha then some (pyUpper str)
  else none

/-- The emergency fallback that re-reads the context country when every
earlier step produced nothing. -/
def emergencyCountry (ctxCountry : Option String) : Option String :=
  match ctxCountry with
  | some s =>
      if s ≠ "" then
        let l := pyStrip (pyLower s)
        if strContains l "india" ∨ l = "in" then some "IN"
        else if strContains l "united states" ∨ ["us", "usa"].contains l then some "US"
        else none
      else none
  | none => none

/-- The country-resolution priority chain of the phone loop: the country
column first, then the phone's own `+91`/`+1` prefix, then the
dataset-level detected country, then the emergency context re-read.
(The city/state LLM inference is the degraded no-LLM path.) -/
def resolveCountry (ctxCountry : Option String) (value : String)
    (phoneCountry : String) : Option String :=
  let c1 :=
    match ctxCountry with
    | some s =>
        if s ≠ "" ∧ ¬ ["None", "null", "nan"].contains s then mapCountryName s else none
    | none => none
  let c2 :=
    match c1 with
    | some c => some c
    | none =>
        if pyStartsWith (pyStrip value) "+91" then some "IN"
        else if pyStartsWith (pyStrip value) "+1" then some "US"
        else some phoneCountry
  match c2 with
  | some c => if c ≠ "" then some c else emergencyCountry ctxCountry
  | none => emergencyCountry ctxCountry

/-- The double-check that strips US-style brackets from an Indian result. -/
def bracketFix (cu : Option String) : Option (String × PyNum) → Option (String × PyNum)
  | none => none
  | some (np, conf) =>
      if cu = some "IN" ∧ strContains np "(" ∧ strContains np ")" then
        let d0 := phoneDigits np
        let d1 := if hasPfx ['+', '9', '1'] d0 then d0.drop 3 else d0
        if d1.length = 10 then some ("+91 " ++ String.mk d1, conf) else some (np, conf)
      else some (np, conf)

/-- Processing of one phone cell by the Formatting agent: resolve the
country, normalize, fix brackets, and emit a `PhoneNormalization` issue when
the normalized number differs from the cell text. -/
def formattingPhoneCellIssue (phoneCountry : String) (rowIdx : ℕ) (row : Row)
    (col : String) : Option AIssue :=
  match rowGet row col with
  | some v =>
      if v ≠ "" ∧ pyStrip v ≠ "" then
        let ctxCountry := (buildPhoneContext row).1
        let cu := resolveCountry ctxCountry v phoneCountry
        match bracketFix cu (normalize_phone v cu ctxCountry) with
        | some (np, conf) =>
            if np ≠ v then some ⟨some rowIdx, col, "PhoneNormalization", v, some np, conf⟩
            else none
        | none => none
      else none
  | none => none

/-- The phone-column keywords of the Formatting agent. -/
def phoneKeywords : List String := ["phone", "tel", "mobile", "cell"]

/-- The phone columns: named like a phone or analyzed as one (columns the
analyzer skipped for lack of values cannot qualify). -/
def phoneColumns (rows : List Row) : List String :=
  (dsCols rows).filter fun col =>
    (inferredColumnType rows col).isSome &&
      (phoneKeywords.any (fun kw => strContains (pyLower col) kw) ||
        inferredColumnType rows col = some "phone")

/-- The first column whose lowercased name contains `country`. -/
def firstCountryCol (rows : List Row) : Option String :=
  (dsCols rows).find? fun c => strContains (pyLower c) "country"

/-- The dataset-level phone country the agent computes up front. -/
def formattingPhoneCountry (rows : List Row) : String :=
  match phoneColumns rows with
  | [] => "US"
  | pc :: _ => detect_phone_country_from_data rows pc (firstCountryCol rows)

/-- The `PhoneNormalization` issues `FormattingAgent.run` emits (its phone
half; the date half emits only `DateFormatting` issues). -/
def formattingAgentPhoneIssues (rows : List Row) : List AIssue :=
  let pcols := phoneColumns rows
  let pc := formattingPhoneCountry rows
  (rows.enum).flatMap fun (p : ℕ × Row) =>
    pcols.filterMap (formattingPhoneCellIssue pc p.1 p.2)

/-! ## Concrete datasets used by the claim theorems -/

/-- The row of the country-priority scenario: country `India`, a phone with
a `+1` prefix, city `Mumbai`. -/
def rowIndia : Row :=
  [("country", some "India"), ("phone", some "+1 555 123 4567"), ("city", some "Mumbai")]

/-- A height column whose majority unit is cm containing a feet-inches
value. -/
def rowsFtIn : List Row :=
  [[("height", some "5ft 10in")],
   [("height", some "180 cm")],
   [("height", some "175 cm")]]

/-- A height column whose majority unit is cm containing a `70 in` value. -/
def rowsInches : List Row :=
  [[("height", some "70 in")],
   [("height", some "180 cm")],
   [("height", some "175 cm")]]

/-- A column whose values are ten-digit strings: every value passes both
the phone rule and the numeric rule of the analyzer. -/
def rowsTenDigit : List Row :=
  [[("code", some "1234567890")],
   [("code", some "2234567890")]]

/-! ## Auxiliary notions for the applier theorems -/

/-- Rectangularity of the loaded dataframe: every row has one cell per
column (true of any parsed CSV). -/
def dfRect (df : Df) : Bool :=
  df.rows.all fun row => row.length = df.cols.length

/-- The cell value the non-unit fix loop writes for an issue: `none` for a
nullish suggestion, otherwise the suggested string. -/
def issueWriteValue (i : Issue) : Cell :=
  if suggestedIsNull i.suggestedValue then none else i.suggestedValue

/-- The new-value string the loop records in the change map. -/
def changedNewStr (i : Issue) : String :=
  if suggestedIsNull i.suggestedValue then "null" else i.suggestedValue.getD ""

/-- The static conditions under which the non-unit fix loop applies an
issue to cell `(r, c)`: the issue targets exactly that cell, the cell is in
range, the issue is not a `ScaleMismatch`, and the column is unprotected. -/
def appliesAt (cols : List String) (nrows : ℕ) (i : Issue) (r : ℕ) (c : String) : Prop :=
  i.rowId = some (r : ℤ) ∧ i.column = some c ∧ c ∈ cols ∧ r < nrows ∧
    i.issueType ≠ "ScaleMismatch" ∧ isProtectedColumn c = false

instance (cols : List String) (nrows : ℕ) (i : Issue) (r : ℕ) (c : String) :
    Decidable (appliesAt cols nrows i r c) := by
  unfold appliesAt
  infer_instance

/-- A height column with one `500 cm` cell, for the applier scenarios. -/
def dfHeight : Df := ⟨["height"], [[some "500 cm"]]⟩

/-- A `ScaleMismatch` issue suggesting metres for that cell. -/
def issueScale : Issue := ⟨some 0, some "height", some "5.00 m", "ScaleMismatch"⟩

/-- A later-listed non-unit issue on the same cell. -/
def issueDate : Issue := ⟨some 0, some "height", some "990", "DateFormatting"⟩

/-- A protected `city` column holding a bare number. -/
def dfCity : Df := ⟨["city"], [[some "5"]]⟩

/-- A `ScaleMismatch` issue aimed at the protected `city` column. -/
def issueCityScale : Issue := ⟨some 0, some "city", some "5.00 cm", "ScaleMismatch"⟩

/-- A non-unit issue aimed at the protected `city` column. -/
def issueCityGeo : Issue := ⟨some 0, some "city", some "Delhi", "GeographicEnrichment"⟩

/-- A birth/job dataframe realizing the spec's temporal-paradox example. -/
def dfJob : Df := ⟨["birth_date", "job_start"], [[some "2000-01-01", some "1990-05-01"]]⟩

/-- The same data as a detector-agent row. -/
def rowJob : Row := [("birth_date", some "2000-01-01"), ("job_start", some "1990-05-01")]

/-! ## C3 — country column beats the phone prefix -/

/-- C3: For the row `country = "India"`, `phone = "+1 555 123 4567"`,
`city = "Mumbai"`, the Formatting agent emits exactly one
`PhoneNormalization` issue, whose suggested value is `+91` followed by the
last ten digits of the phone, with no brackets, at confidence 0.9: the
country column wins over the phone's own `+1` prefix. -/
theorem formatting_country_priority :
    formattingAgentPhoneIssues [rowIndia] =
      [⟨some 0, "phone", "PhoneNormalization", "+1 555 123 4567",
        some "+91 5551234567", pq 9 10⟩] ∧
    pyStartsWith "+91 5551234567" "+91 " = true ∧
    strContains "+91 5551234567" "(" = false ∧
    String.mk (lastN 10 (phoneDigits "+1 555 123 4567")) = "5551234567" ∧
    (pq 9 10).val = 9 / 10 := by
  refine ⟨?_, rfl, rfl, rfl, by norm_num [PyNum.val, pq]⟩
  rfl

/-! ## C5 — feet-inches in a cm-majority column -/

/-- C5 counterexample: in the cm-majority `height` column, the cell
`"5ft 10in"` yields no `ScaleMismatch` at all (the claim demands exactly
one with suggestion `"177.80 cm"`): `parse_units` converts feet-inches
directly to cm (value 17780/100 = 177.80), so the cell's parsed unit
already equals the canonical unit. -/
theorem units_ftin_no_issue :
    canonicalUnit rowsFtIn "height" = "cm" ∧
    parse_units "5ft 10in" = some (pq 17780 100, "cm", pq 9 10) ∧
    (pq 17780 100).val = 889 / 5 ∧
    unitsAgentRun rowsFtIn = [] := by
  refine ⟨rfl, rfl, by norm_num [PyNum.val, pq], rfl⟩

/-- C5 amended: a cell whose parsed unit differs from the cm canonical
unit, such as `"70 in"`, yields exactly one `ScaleMismatch` with suggested
value `"177.80 cm"` — at confidence 0.85, which lies in the claimed
0.85–0.90 band. -/
theorem units_inches_one_issue :
    canonicalUnit rowsInches "height" = "cm" ∧
    unitsAgentRun rowsInches =
      [⟨some 0, "height", "ScaleMismatch", "70 in", some "177.80 cm", pq 85 100⟩] ∧
    (pq 85 100).val ≥ 85 / 100 ∧ (pq 85 100).val ≤ 90 / 100 := by
  refine ⟨rfl, rfl, by norm_num [PyNum.val, pq], by norm_num [PyNum.val, pq]⟩

/-! ## C6 — the conversion table has no mass units -/

/-- C6 counterexample: the same-dimension mass conversion kg → g returns
`none`, because `convert_units`' only table is the length table. -/
theorem convert_units_mass_cex :
    convert_units 1 "kg" "g" = none ∧ toCmFactor "kg" = none ∧
    convert_units 1 "lb" "kg" = none := by
  exact ⟨rfl, rfl, rfl⟩

/-- C6 amended: `convert_units` converts through a single base-cm length
table covering exactly `cm, m, in, ft`, and returns `none` precisely when
either unit lies outside that table — so every mass pair returns `none`. -/
theorem convert_units_length_only (v : PyNum) (a b : String) :
    (convert_units v a b = none ↔ (toCmFactor a = none ∨ toCmFactor b = none)) ∧
    convert_units v "kg" "g" = none ∧
    convert_units v "g" "kg" = none ∧
    convert_units v "lb" "oz" = none ∧
    convert_units v "kg" "cm" = none := by
  refine ⟨?_, rfl, rfl, rfl, rfl⟩
  unfold convert_units
  cases h1 : toCmFactor a <;> cases h2 : toCmFactor b <;> simp [h1, h2]

/-! ## C7 — fuzzy matcher: default threshold and similarity -/

/-- C7 counterexample: the default threshold is 0.7, not 0.6 — the value
`"abc"` against category `"abz"` has similarity 2/3 ∈ [0.6, 0.7), is
rejected under the default call but accepted at threshold 0.6; and the
similarity is not `|A∩B| / max(|A|,|B|)`: `"aa"` vs `"ab"` scores 1.0
(value 2/2) because each occurrence of a value character counts. -/
theorem fuzzy_default_cex :
    fuzzy_match_categoryD "abc" ["abz"] = none ∧
    fuzzy_match_category "abc" ["abz"] (pq 6 10) = some ("abz", pq 2 3) ∧
    (pq 2 3).val = 2 / 3 ∧
    fuzzy_match_categoryD "aa" ["ab"] = some ("ab", pq 2 2) ∧
    (pq 2 2).val = 1 ∧
    fuzzyDefaultThreshold.val = 7 / 10 := by
  refine ⟨rfl, rfl, by norm_num [PyNum.val, pq], rfl, by norm_num [PyNum.val, pq],
    by norm_num [PyNum.val, fuzzyDefaultThreshold, pq]⟩

/-- C7 amended: the similarity counts the value's characters (with
multiplicity) that occur in the category, divided by the longer length; the
threshold parameter defaults to 0.7 (the Categorical agent passes 0.6
explicitly); and a value equal case-insensitively to an allowed category is
returned, as its first such occurrence, with similarity exactly 1.0. -/
theorem fuzzy_exact_match (value : String) (cats : List String) (cat : String)
    (hv : value ≠ "") (hfind : exactCategoryMatch (pyStrip (pyLower value)) cats = some cat) :
    fuzzy_match_categoryD value cats = some (cat, 1) ∧ fuzzyDefaultThreshold.val = 7 / 10 := by
  have hc : cats ≠ [] := by
    intro h; subst h; simp [exactCategoryMatch] at hfind
  refine ⟨?_, by norm_num [PyNum.val, fuzzyDefaultThreshold, pq]⟩
  unfold fuzzy_match_categoryD fuzzy_match_category
  rw [if_neg (by simp [hv, hc])]
  simp only [hfind]

/-- C7 witness: `"RED"` matches the allowed category `"Red"` exactly,
case-insensitively, and is returned with similarity 1. -/
theorem fuzzy_exact_match_witness :
    fuzzy_match_categoryD "RED" ["Red", "Blue"] = some ("Red", 1) ∧
    fuzzyDefaultThreshold.val = 7 / 10 :=
  fuzzy_exact_match "RED" ["Red", "Blue"] "Red" (by decide) (by rfl)

/-! ## C8 — the last matching type rule wins, not the first -/

/-- C8 counterexample: a column of ten-digit strings passes both the phone
rule (every value has a ten-digit run) and the numeric rule (every value is
a plain number), and is assigned `numeric` — the later rule overwrote the
earlier one, so the first matching type does not win. -/
theorem infer_type_cex :
    (columnValues rowsTenDigit "code").countP phoneLike = 2 ∧
    (columnValues rowsTenDigit "code").countP numericLike = 2 ∧
    inferredColumnType rowsTenDigit "code" = some "numeric" := by
  exact ⟨rfl, rfl, rfl⟩

/-- C8 amended: the rules are evaluated in order email, phone, date,
numeric over the string-coerced non-empty sampled values, and each matching
rule overwrites the inferred type, so the last matching rule wins: any
column whose values pass both the phone rule (>30%) and the numeric rule
(>70%) is assigned `numeric`. -/
theorem infer_type_last_wins (values : List String)
    (_hphone : 10 * values.countP phoneLike > 3 * values.length)
    (hnum : 10 * values.countP numericLike > 7 * values.length) :
    inferTypeOfValues values = "numeric" := by
  unfold inferTypeOfValues
  rw [if_pos hnum]

/-- C8 witness: the ten-digit column satisfies both rules and is typed
`numeric`. -/
theorem infer_type_last_wins_witness :
    inferTypeOfValues (columnValues rowsTenDigit "code") = "numeric" :=
  infer_type_last_wins (columnValues rowsTenDigit "code") (by decide) (by decide)

/-! ## C9 — issue id segments and the category set -/

/-- C9 counterexample: an issue on row 0 gets the literal `dataset` as its
third id segment (Python `row_id or 'dataset'` treats 0 as falsy), and the
category derived for `EmailValidationAgent` is `Emailvalidation`
(`str.title()` lowercases the interior), so the claimed category set is
wrong as well. -/
theorem issue_id_cex :
    issueId "Units" "ScaleMismatch" (some 0) "height" "abcd1234" =
      "Units_ScaleMismatch_dataset_height_abcd1234" ∧
    agentCategoryOf "EmailValidationAgent" = "Emailvalidation" ∧
    agentCategories =
      ["Formatting", "Units", "Categorical", "Imputation", "Semantic",
       "Logic", "Extraction", "Emailvalidation", "CompanyValidation",
       "GeographicEnrichment"] := by
  exact ⟨rfl, rfl, rfl⟩

/-- C9 amended: the id format is
`category_issueType_segment_column_random8` where the third segment is the
printed row id for a nonzero integer row id but the literal `dataset` both
when the row id is null and when it is 0; and the category set replaces
`EmailValidation` with `Emailvalidation` (the other nine members are as
claimed, two of them by explicit overrides). -/
theorem issue_id_format (cat it col uid : String) (r : Option ℤ) (n : ℤ) (hn : n ≠ 0) :
    issueId cat it r col uid =
      cat ++ "_" ++ it ++ "_" ++ rowSegment r ++ "_" ++ col ++ "_" ++ uid ∧
    rowSegment (some n) = toString n ∧
    rowSegment none = "dataset" ∧
    rowSegment (some 0) = "dataset" ∧
    agentCategories =
      ["Formatting", "Units", "Categorical", "Imputation", "Semantic",
       "Logic", "Extraction", "Emailvalidation", "CompanyValidation",
       "GeographicEnrichment"] := by
  refine ⟨rfl, ?_, rfl, rfl, rfl⟩
  simp [rowSegment, hn]

/-- C9 witness: the format theorem applied at row id 3. -/
theorem issue_id_format_witness :
    issueId "Logic" "TemporalParadox" (some 3) "job_start" "abcd1234" =
      "Logic" ++ "_" ++ "TemporalParadox" ++ "_" ++ rowSegment (some 3) ++ "_" ++
        "job_start" ++ "_" ++ "abcd1234" ∧
    rowSegment (some 3) = toString (3 : ℤ) ∧
    rowSegment none = "dataset" ∧
    rowSegment (some 0) = "dataset" ∧
    agentCategories =
      ["Formatting", "Units", "Categorical", "Imputation", "Semantic",
       "Logic", "Extraction", "Emailvalidation", "CompanyValidation",
       "GeographicEnrichment"] :=
  issue_id_format "Logic" "TemporalParadox" "job_start" "abcd1234" (some 3) 3 (by decide)

/-! ## List and dataframe access lemmas -/

/-- Setting one index leaves `getD` at any other index unchanged. -/
theorem listSet_getD_ne {α : Type} (l : List α) (i j : ℕ) (a d : α) (h : i ≠ j) :
    (l.set i a).getD j d = l.getD j d := by
  induction l generalizing i j with
  | nil => simp
  | cons x t ih =>
      cases i with
      | zero =>
          cases j with
          | zero => exact absurd rfl h
          | succ j2 => simp
      | succ i2 =>
          cases j with
          | zero => simp
          | succ j2 => simpa using ih i2 j2 (by omega)

/-- `getD` at a freshly set index. -/
theorem listSet_getD_self {α : Type} (l : List α) (j : ℕ) (a d : α) :
    (l.set j a).getD j d = if j < l.length then a else d := by
  induction l generalizing j with
  | nil => simp
  | cons x t ih =>
      cases j with
      | zero => simp
      | succ j2 => simpa [Nat.succ_lt_succ_iff] using ih j2

/-- Setting beyond the end is a no-op. -/
theorem listSet_oob {α : Type} (l : List α) (i : ℕ) (a : α) (h : l.length ≤ i) :
    l.set i a = l := by
  induction l generalizing i with
  | nil => simp
  | cons x t ih =>
      cases i with
      | zero => simp at h
      | succ i2 => simpa using ih i2 (by simpa using h)

/-- An in-range `getD` is a member. -/
theorem listGetD_mem {α : Type} (l : List α) (i : ℕ) (d : α) (h : i < l.length) :
    l.getD i d ∈ l := by
  induction l generalizing i with
  | nil => simp at h
  | cons x t ih =>
      cases i with
      | zero => simp
      | succ i2 =>
          simp only [List.getD_cons_succ]
          exact List.mem_cons_of_mem _ (ih i2 (by simpa using h))

/-- Distinct values have distinct first indices. -/
theorem indexOf_ne_of_mem {c c2 : String} {cols : List String}
    (h : c ∈ cols) (hne : c ≠ c2) : cols.indexOf c ≠ cols.indexOf c2 := by
  intro he
  have h1 : cols.indexOf c < cols.length := List.indexOf_lt_length.mpr h
  have h2 : cols.indexOf c2 < cols.length := he ▸ h1
  have hg1 : cols.get ⟨cols.indexOf c, h1⟩ = c := List.indexOf_get h1
  have hg2 : cols.get ⟨cols.indexOf c2, h2⟩ = c2 := List.indexOf_get h2
  apply hne
  rw [← hg1, ← hg2]
  congr 1
  exact Fin.ext he

/-- `dfSet` never touches the column list. -/
theorem dfSet_cols (df : Df) (r : ℕ) (c : String) (v : Cell) :
    (dfSet df r c v).cols = df.cols := rfl

/-- `dfSet` never changes the number of rows. -/
theorem dfSet_rows_length (df : Df) (r : ℕ) (c : String) (v : Cell) :
    (dfSet df r c v).rows.length = df.rows.length := by
  simp [dfSet]

/-- Clearing a cell really clears it (no shape assumptions needed: an
out-of-range read is already `none`). -/
theorem dfGet_dfSet_none (df : Df) (r : ℕ) (c : String) :
    dfGet (dfSet df r c none) r c = none := by
  unfold dfGet dfSet
  simp only
  rw [listSet_getD_self]
  by_cases h : r < df.rows.length
  · rw [if_pos h, listSet_getD_self]
    split <;> rfl
  · rw [if_neg h]
    rfl

/-- Writing one cell leaves every other cell unchanged (the written column
must exist, as the loop guard guarantees). -/
theorem dfGet_dfSet_ne (df : Df) (r r2 : ℕ) (c c2 : String) (v : Cell)
    (hc : c ∈ df.cols) (h : r ≠ r2 ∨ c ≠ c2) :
    dfGet (dfSet df r c v) r2 c2 = dfGet df r2 c2 := by
  unfold dfGet dfSet
  simp only
  rcases h with h | h
  · rw [listSet_getD_ne _ _ _ _ _ h]
  · by_cases hr : r = r2
    · subst hr
      rw [listSet_getD_self]
      by_cases hlen : r < df.rows.length
      · rw [if_pos hlen, listSet_getD_ne _ _ _ _ _ (indexOf_ne_of_mem hc h)]
      · rw [if_neg hlen, List.getD_eq_default _ _ (le_of_not_lt hlen)]
    · rw [listSet_getD_ne _ _ _ _ _ hr]

/-- A cell write in range reads back, on a rectangular frame. -/
theorem dfGet_dfSet_eq (df : Df) (r : ℕ) (c : String) (v : Cell)
    (hrect : dfRect df = true) (hc : c ∈ df.cols) (hr : r < df.rows.length) :
    dfGet (dfSet df r c v) r c = v := by
  unfold dfGet dfSet
  simp only
  rw [listSet_getD_self, if_pos hr, listSet_getD_self, if_pos]
  have hrow : df.rows.getD r [] ∈ df.rows := listGetD_mem _ _ _ hr
  have hlen : (df.rows.getD r []).length = df.cols.length := by
    have := (List.all_eq_true.mp hrect) _ hrow
    simpa using this
  rw [hlen]
  exact List.indexOf_lt_length.mpr hc

/-- `dfSet` preserves rectangularity. -/
theorem dfRect_dfSet (df : Df) (r : ℕ) (c : String) (v : Cell)
    (h : dfRect df = true) : dfRect (dfSet df r c v) = true := by
  by_cases hr : r < df.rows.length
  · unfold dfRect dfSet at *
    rw [List.all_eq_true] at *
    intro row hrow
    simp only at hrow
    rcases List.mem_or_eq_of_mem_set hrow with h2 | h2
    · exact h row h2
    · subst h2
      simp only [List.length_set]
      exact h _ (listGetD_mem _ _ _ hr)
  · unfold dfRect dfSet at *
    simp only [listSet_oob _ _ _ (le_of_not_lt hr)]
    exact h

/-! ## Behaviour of one iteration of the non-unit fix loop -/

/-- Each loop iteration either leaves the state unchanged or performs one
cell write: to an applicable, not-yet-fixed cell, writing
`issueWriteValue`, recording `changedNewStr` and marking the cell fixed. -/
theorem applyIssueStep_skip_or_write (st : Df × Changed × List (ℕ × String)) (i : Issue) :
    applyIssueStep st i = st ∨
    ∃ r c, appliesAt st.1.cols st.1.rows.length i r c ∧ (r, c) ∉ st.2.2 ∧
      applyIssueStep st i =
        (dfSet st.1 r c (issueWriteValue i),
         upsert (r, c) (cellStr (dfGet st.1 r c), changedNewStr i) st.2.1,
         (r, c) :: st.2.2) := by
  cases hri : i.rowId with
  | none =>
      refine Or.inl ?_
      unfold applyIssueStep
      rw [hri]
  | some rr =>
    cases hci : i.column with
    | none =>
        refine Or.inl ?_
        unfold applyIssueStep
        rw [hri, hci]
    | some col =>
      unfold applyIssueStep
      rw [hri, hci]
      simp only
      by_cases h1 : st.1.cols.contains col
      case neg =>
        rw [Bool.not_eq_true] at h1
        rw [if_pos (show (!st.1.cols.contains col) = true by rw [h1]; rfl)]
        exact Or.inl rfl
      case pos =>
      rw [if_neg (show ¬(!st.1.cols.contains col) = true by rw [h1]; simp)]
      by_cases h2 : rr < 0 ∨ (st.1.rows.length : ℤ) ≤ rr
      case pos => rw [if_pos h2]; exact Or.inl rfl
      case neg =>
      rw [if_neg h2]
      by_cases h3 : i.issueType = "ScaleMismatch"
      case pos => rw [if_pos h3]; exact Or.inl rfl
      case neg =>
      rw [if_neg h3]
      by_cases h4 : st.2.2.contains (rr.toNat, col)
      case pos => rw [if_pos h4]; exact Or.inl rfl
      case neg =>
      rw [if_neg h4]
      by_cases h5 : isNameColumn col
      case pos => rw [if_pos h5]; exact Or.inl rfl
      case neg =>
      rw [if_neg h5]
      by_cases h6 : isCityColumn col
      case pos => rw [if_pos h6]; exact Or.inl rfl
      case neg =>
      rw [if_neg h6]
      have hrr : (rr.toNat : ℤ) = rr := by omega
      have happ : appliesAt st.1.cols st.1.rows.length i rr.toNat col := by
        refine ⟨by rw [hri, hrr], hci, List.elem_iff.mp h1, by omega, h3, ?_⟩
        simp [isProtectedColumn, Bool.eq_false_iff.mpr h5, Bool.eq_false_iff.mpr h6]
      have hnf : (rr.toNat, col) ∉ st.2.2 := fun hm => h4 (List.elem_iff.mpr hm)
      by_cases h7 : suggestedIsNull i.suggestedValue
      case pos =>
        rw [if_pos h7]
        refine Or.inr ⟨rr.toNat, col, happ, hnf, ?_⟩
        simp [issueWriteValue, changedNewStr, h7]
      case neg =>
        rw [if_neg h7]
        cases hsv : i.suggestedValue with
        | none => exact absurd (hsv ▸ rfl) h7
        | some s =>
          have hs : s ≠ "" := by
            intro he
            subst he
            exact h7 (by rw [hsv]; rfl)
          refine Or.inr ⟨rr.toNat, col, happ, hnf, ?_⟩
          rw [hsv] at h7
          simp [hs, issueWriteValue, changedNewStr, h7, hsv]

/-- When the issue is applicable to a cell not yet fixed, the iteration
performs exactly that write. -/
theorem applyIssueStep_writes (st : Df × Changed × List (ℕ × String)) (i : Issue)
    (r : ℕ) (c : String)
    (happ : appliesAt st.1.cols st.1.rows.length i r c) (hnf : (r, c) ∉ st.2.2) :
    applyIssueStep st i =
      (dfSet st.1 r c (issueWriteValue i),
       upsert (r, c) (cellStr (dfGet st.1 r c), changedNewStr i) st.2.1,
       (r, c) :: st.2.2) := by
  obtain ⟨h1, h2, h3, h4, h5, h6⟩ := happ
  unfold applyIssueStep
  rw [h1, h2]
  simp only
  have hcont : st.1.cols.contains c = true := List.elem_iff.mpr h3
  rw [if_neg (show ¬(!st.1.cols.contains c) = true by rw [hcont]; simp)]
  rw [if_neg (by omega)]
  rw [if_neg h5]
  simp only [Int.toNat_natCast]
  rw [if_neg (fun hm => hnf (List.elem_iff.mp hm))]
  have h6' := Bool.or_eq_false_iff.mp (by simpa [isProtectedColumn] using h6)
  rw [if_neg (Bool.eq_false_iff.mp h6'.1), if_neg (Bool.eq_false_iff.mp h6'.2)]
  by_cases h7 : suggestedIsNull i.suggestedValue
  · rw [if_pos h7]
    simp [issueWriteValue, changedNewStr, h7]
  · rw [if_neg h7]
    cases hsv : i.suggestedValue with
    | none => exact absurd (hsv ▸ rfl) h7
    | some s =>
      have hs : s ≠ "" := by
        intro he
        subst he
        exact h7 (by rw [hsv]; rfl)
      rw [hsv] at h7
      simp [hs, issueWriteValue, changedNewStr, h7, hsv]

/-- When an issue is not applicable to `(r, c)` — or the cell is already
fixed — the iteration leaves that cell's value and its fixed-status
unchanged. -/
theorem applyIssueStep_preserve (st : Df × Changed × List (ℕ × String)) (i : Issue)
    (r : ℕ) (c : String)
    (h : appliesAt st.1.cols st.1.rows.length i r c → (r, c) ∈ st.2.2) :
    dfGet (applyIssueStep st i).1 r c = dfGet st.1 r c ∧
    ((r, c) ∈ (applyIssueStep st i).2.2 ↔ (r, c) ∈ st.2.2) := by
  rcases applyIssueStep_skip_or_write st i with hcase | ⟨r2, c2, happ2, hnf2, hcase⟩
  · rw [hcase]
    exact ⟨rfl, Iff.rfl⟩
  · have hne : (r2, c2) ≠ (r, c) := by
      intro he
      obtain ⟨he1, he2⟩ := Prod.mk.inj he
      subst he1
      subst he2
      exact hnf2 (h happ2)
    rw [hcase]
    constructor
    · refine dfGet_dfSet_ne _ _ _ _ _ _ happ2.2.2.1 ?_
      by_cases hr : r2 = r
      · subst hr
        exact Or.inr fun hc2 => hne (by rw [hc2])
      · exact Or.inl hr
    · simp only [List.mem_cons]
      constructor
      · rintro (he | hm)
        · exact absurd he.symm hne
        · exact hm
      · exact Or.inr

/-- The loop iteration never changes the column list. -/
theorem applyIssueStep_cols (st : Df × Changed × List (ℕ × String)) (i : Issue) :
    (applyIssueStep st i).1.cols = st.1.cols := by
  rcases applyIssueStep_skip_or_write st i with h | ⟨r, c, _, _, h⟩ <;> rw [h]
  all_goals rfl

/-- The loop iteration never changes the row count. -/
theorem applyIssueStep_len (st : Df × Changed × List (ℕ × String)) (i : Issue) :
    (applyIssueStep st i).1.rows.length = st.1.rows.length := by
  rcases applyIssueStep_skip_or_write st i with h | ⟨r, c, _, _, h⟩
  · rw [h]
  · rw [h]
    exact dfSet_rows_length _ _ _ _

/-- The loop iteration preserves rectangularity. -/
theorem applyIssueStep_rect (st : Df × Changed × List (ℕ × String)) (i : Issue)
    (h : dfRect st.1 = true) : dfRect (applyIssueStep st i).1 = true := by
  rcases applyIssueStep_skip_or_write st i with hc | ⟨r, c, _, _, hc⟩
  · rw [hc]; exact h
  · rw [hc]; exact dfRect_dfSet _ _ _ _ h

/-- The fixed-cell set only grows. -/
theorem applyIssueStep_fixed_mono (st : Df × Changed × List (ℕ × String)) (i : Issue)
    (k : ℕ × String) (h : k ∈ st.2.2) : k ∈ (applyIssueStep st i).2.2 := by
  rcases applyIssueStep_skip_or_write st i with hc | ⟨r, c, _, _, hc⟩
  · rw [hc]; exact h
  · rw [hc]; exact List.mem_cons_of_mem _ h

/-! ## Behaviour of the whole non-unit fix loop -/

/-- The loop never changes the column list. -/
theorem applyIssueLoop_cols (issues : List Issue) :
    ∀ st, (applyIssueLoop issues st).1.cols = st.1.cols := by
  induction issues with
  | nil => intro st; rfl
  | cons i t ih =>
      intro st
      show (applyIssueLoop t (applyIssueStep st i)).1.cols = st.1.cols
      rw [ih (applyIssueStep st i), applyIssueStep_cols]

/-- The loop never changes the row count. -/
theorem applyIssueLoop_len (issues : List Issue) :
    ∀ st, (applyIssueLoop issues st).1.rows.length = st.1.rows.length := by
  induction issues with
  | nil => intro st; rfl
  | cons i t ih =>
      intro st
      show (applyIssueLoop t (applyIssueStep st i)).1.rows.length = st.1.rows.length
      rw [ih (applyIssueStep st i), applyIssueStep_len]

/-- The loop preserves rectangularity. -/
theorem applyIssueLoop_rect (issues : List Issue) :
    ∀ st, dfRect st.1 = true → dfRect (applyIssueLoop issues st).1 = true := by
  induction issues with
  | nil => intro st h; exact h
  | cons i t ih =>
      intro st h
      exact ih (applyIssueStep st i) (applyIssueStep_rect st i h)

/-- If every issue that is applicable to `(r, c)` meets an already-fixed
cell, the loop leaves the cell's value and fixed-status unchanged. -/
theorem applyIssueLoop_preserve (issues : List Issue) :
    ∀ st (r : ℕ) (c : String),
      (∀ j ∈ issues, appliesAt st.1.cols st.1.rows.length j r c → (r, c) ∈ st.2.2) →
      dfGet (applyIssueLoop issues st).1 r c = dfGet st.1 r c ∧
      ((r, c) ∈ (applyIssueLoop issues st).2.2 ↔ (r, c) ∈ st.2.2) := by
  induction issues with
  | nil => intro st r c _; exact ⟨rfl, Iff.rfl⟩
  | cons i t ih =>
      intro st r c h
      have hstep := applyIssueStep_preserve st i r c (h i (List.mem_cons_self i t))
      have ihs := ih (applyIssueStep st i) r c (by
        intro j hj ha
        rw [applyIssueStep_cols, applyIssueStep_len] at ha
        exact (hstep.2).mpr (h j (List.mem_cons_of_mem i hj) ha))
      refine ⟨?_, ?_⟩
      · show dfGet (applyIssueLoop t (applyIssueStep st i)).1 r c = dfGet st.1 r c
        rw [ihs.1, hstep.1]
      · show (r, c) ∈ (applyIssueLoop t (applyIssueStep st i)).2.2 ↔ (r, c) ∈ st.2.2
        rw [ihs.2, hstep.2]

/-- A protected column is never touched by the non-unit fix loop. -/
theorem applyIssueLoop_protected (issues : List Issue)
    (st : Df × Changed × List (ℕ × String)) (r : ℕ) (c : String)
    (h : isProtectedColumn c = true) :
    dfGet (applyIssueLoop issues st).1 r c = dfGet st.1 r c :=
  (applyIssueLoop_preserve issues st r c
    (fun _ _ ha => absurd ha.2.2.2.2.2 (by simp [h]))).1

/-- After the first applicable issue writes a cell, the rest of the loop
leaves the cell alone; combined with the skip of every earlier
inapplicable issue, the cell's final value is the first applicable issue's
write. -/
theorem applyIssueLoop_first_write (pre post : List Issue) (i : Issue) :
    ∀ st (r : ℕ) (c : String),
      dfRect st.1 = true →
      appliesAt st.1.cols st.1.rows.length i r c →
      (∀ j ∈ pre, ¬ appliesAt st.1.cols st.1.rows.length j r c) →
      (r, c) ∉ st.2.2 →
      dfGet (applyIssueLoop (pre ++ i :: post) st).1 r c = issueWriteValue i := by
  induction pre with
  | nil =>
      intro st r c hrect happ _ hnf
      show dfGet (applyIssueLoop post (applyIssueStep st i)).1 r c = issueWriteValue i
      rw [applyIssueStep_writes st i r c happ hnf]
      have hpost := applyIssueLoop_preserve post
        (dfSet st.1 r c (issueWriteValue i),
         upsert (r, c) (cellStr (dfGet st.1 r c), changedNewStr i) st.2.1,
         (r, c) :: st.2.2) r c
        (fun j _ _ => List.mem_cons_self _ _)
      rw [hpost.1]
      exact dfGet_dfSet_eq st.1 r c (issueWriteValue i) hrect happ.2.2.1 happ.2.2.2.1
  | cons p pt ih =>
      intro st r c hrect happ hpre hnf
      show dfGet (applyIssueLoop (pt ++ i :: post) (applyIssueStep st p)).1 r c
        = issueWriteValue i
      have hstep := applyIssueStep_preserve st p r c
        (fun ha => absurd ha (hpre p (List.mem_cons_self p pt)))
      refine ih (applyIssueStep st p) r c (applyIssueStep_rect st p hrect) ?_ ?_ ?_
      · rw [applyIssueStep_cols, applyIssueStep_len]
        exact happ
      · intro j hj
        rw [applyIssueStep_cols, applyIssueStep_len]
        exact hpre j (List.mem_cons_of_mem p hj)
      · rw [hstep.2]
        exact hnf

/-! ## Behaviour of the wholesale unit-standardization pass -/

/-- One standardization step never changes the column list. -/
theorem stdCellStep_cols (df0 : Df) (col t : String) (st : Df × Changed) (idx : ℕ) :
    (stdCellStep df0 col t st idx).1.cols = st.1.cols := by
  simp only [stdCellStep]
  split
  · split <;> rfl
  · rfl

/-- One standardization step never changes the row count. -/
theorem stdCellStep_len (df0 : Df) (col t : String) (st : Df × Changed) (idx : ℕ) :
    (stdCellStep df0 col t st idx).1.rows.length = st.1.rows.length := by
  simp only [stdCellStep]
  split
  · split
    · exact dfSet_rows_length _ _ _ _
    · rfl
  · rfl

/-- One standardization step preserves rectangularity. -/
theorem stdCellStep_rect (df0 : Df) (col t : String) (st : Df × Changed) (idx : ℕ)
    (h : dfRect st.1 = true) : dfRect (stdCellStep df0 col t st idx).1 = true := by
  simp only [stdCellStep]
  split
  · split
    · exact dfRect_dfSet _ _ _ _ h
    · exact h
  · exact h

/-- One standardization step writes only its own column. -/
theorem stdCellStep_get_ne (df0 : Df) (col t : String) (st : Df × Changed) (idx : ℕ)
    (r : ℕ) (c : String) (hmem : col ∈ st.1.cols) (hne : c ≠ col) :
    dfGet (stdCellStep df0 col t st idx).1 r c = dfGet st.1 r c := by
  simp only [stdCellStep]
  split
  · split
    · exact dfGet_dfSet_ne st.1 idx r col c _ hmem (Or.inr fun he => hne he.symm)
    · rfl
  · rfl

/-- Folding standardization steps never changes the column list. -/
theorem stdFold_cols (df0 : Df) (col t : String) (L : List ℕ) :
    ∀ st, ((L.foldl (stdCellStep df0 col t) st)).1.cols = st.1.cols := by
  induction L with
  | nil => intro st; rfl
  | cons x xs ih =>
      intro st
      show ((xs.foldl (stdCellStep df0 col t) (stdCellStep df0 col t st x))).1.cols = _
      rw [ih, stdCellStep_cols]

/-- Folding standardization steps never changes the row count. -/
theorem stdFold_len (df0 : Df) (col t : String) (L : List ℕ) :
    ∀ st, ((L.foldl (stdCellStep df0 col t) st)).1.rows.length = st.1.rows.length := by
  induction L with
  | nil => intro st; rfl
  | cons x xs ih =>
      intro st
      show ((xs.foldl (stdCellStep df0 col t) (stdCellStep df0 col t st x))).1.rows.length = _
      rw [ih, stdCellStep_len]

/-- Folding standardization steps preserves rectangularity. -/
theorem stdFold_rect (df0 : Df) (col t : String) (L : List ℕ) :
    ∀ st, dfRect st.1 = true →
      dfRect ((L.foldl (stdCellStep df0 col t) st)).1 = true := by
  induction L with
  | nil => intro st h; exact h
  | cons x xs ih =>
      intro st h
      exact ih _ (stdCellStep_rect _ _ _ _ _ h)

/-- Folding standardization steps writes only the standardized column. -/
theorem stdFold_get_ne (df0 : Df) (col t : String) (L : List ℕ) (r : ℕ) (c : String)
    (hne : c ≠ col) :
    ∀ st, col ∈ st.1.cols →
      dfGet ((L.foldl (stdCellStep df0 col t) st)).1 r c = dfGet st.1 r c := by
  induction L with
  | nil => intro st _; rfl
  | cons x xs ih =>
      intro st hmem
      show dfGet ((xs.foldl (stdCellStep df0 col t) (stdCellStep df0 col t st x))).1 r c = _
      rw [ih _ (by rw [stdCellStep_cols]; exact hmem), stdCellStep_get_ne _ _ _ _ _ _ _ hmem hne]

/-- The unit pass never changes the column list. -/
theorem applyUnitPassFold_cols (df0 : Df) (targets : List (String × String)) :
    ∀ st, ((targets.foldl
        (fun (st : Df × Changed) (p : String × String) =>
          if st.1.cols.contains p.1 then stdColumn df0 p.1 p.2 st else st) st)).1.cols
      = st.1.cols := by
  induction targets with
  | nil => intro st; rfl
  | cons p pt ih =>
      intro st
      show ((pt.foldl _ (if st.1.cols.contains p.1 then stdColumn df0 p.1 p.2 st else st))).1.cols = _
      rw [ih]
      split
      · exact stdFold_cols _ _ _ _ _
      · rfl

/-- The unit pass never changes the row count. -/
theorem applyUnitPassFold_len (df0 : Df) (targets : List (String × String)) :
    ∀ st, ((targets.foldl
        (fun (st : Df × Changed) (p : String × String) =>
          if st.1.cols.contains p.1 then stdColumn df0 p.1 p.2 st else st) st)).1.rows.length
      = st.1.rows.length := by
  induction targets with
  | nil => intro st; rfl
  | cons p pt ih =>
      intro st
      show ((pt.foldl _ (if st.1.cols.contains p.1 then stdColumn df0 p.1 p.2 st else st))).1.rows.length = _
      rw [ih]
      split
      · exact stdFold_len _ _ _ _ _
      · rfl

/-- The unit pass preserves rectangularity. -/
theorem applyUnitPassFold_rect (df0 : Df) (targets : List (String × String)) :
    ∀ st, dfRect st.1 = true → dfRect ((targets.foldl
        (fun (st : Df × Changed) (p : String × String) =>
          if st.1.cols.contains p.1 then stdColumn df0 p.1 p.2 st else st) st)).1 = true := by
  induction targets with
  | nil => intro st h; exact h
  | cons p pt ih =>
      intro st h
      refine ih _ ?_
      show dfRect (if st.1.cols.contains p.1 then stdColumn df0 p.1 p.2 st else st).1 = true
      split
      · exact stdFold_rect _ _ _ _ _ h
      · exact h

/-- The unit pass writes only the targeted columns. -/
theorem applyUnitPassFold_get (df0 : Df) (targets : List (String × String)) (r : ℕ)
    (c : String) :
    ∀ st, (∀ p ∈ targets, p.1 ≠ c) →
      dfGet ((targets.foldl
        (fun (st : Df × Changed) (p : String × String) =>
          if st.1.cols.contains p.1 then stdColumn df0 p.1 p.2 st else st) st)).1 r c
      = dfGet st.1 r c := by
  induction targets with
  | nil => intro st _; rfl
  | cons p pt ih =>
      intro st h
      show dfGet ((pt.foldl _ (if st.1.cols.contains p.1 then stdColumn df0 p.1 p.2 st else st))).1 r c = _
      rw [ih _ (fun q hq => h q (List.mem_cons_of_mem p hq))]
      split
      case isTrue hmem =>
        exact stdFold_get_ne df0 p.1 p.2 _ r c
          (fun he => h p (List.mem_cons_self p pt) he.symm) st (List.elem_iff.mp hmem)
      case isFalse => rfl

/-- Keys absent from a lookup are different from every stored key. -/
theorem lookup_none_keys {β : Type} (c : String) :
    ∀ (l : List (String × β)), l.lookup c = none → ∀ p ∈ l, p.1 ≠ c
  | [], _, p, hp => absurd hp (List.not_mem_nil p)
  | (qk, qv) :: qt, h, p, hp => by
      have hsplit : (c == qk) = false ∧ List.lookup c qt = none := by
        cases hbe : c == qk with
        | true => simp [List.lookup, hbe] at h
        | false => simpa [List.lookup, hbe] using h
      rcases List.mem_cons.mp hp with hp2 | hp2
      · subst hp2
        exact (beq_eq_false_iff_ne.mp hsplit.1).symm
      · exact lookup_none_keys c qt hsplit.2 p hp2

/-! ## C1 — first write wins -/

/-- C1 counterexample: two selected issues target the same cell with
different suggestions, the first being a `ScaleMismatch`; the output cell
equals the second-listed issue's suggestion, not the first's.  The
`ScaleMismatch` is consumed by the wholesale standardization pass, which
runs before the fix loop, and the loop's `fixed_cells` set does not know
about that pass, so the later non-unit issue overwrites the cell. -/
theorem apply_first_write_cex :
    issueScale.rowId = issueDate.rowId ∧
    issueScale.column = issueDate.column ∧
    issueScale.suggestedValue ≠ issueDate.suggestedValue ∧
    issueScale.issueType = "ScaleMismatch" ∧
    dfGet (apply_fixes dfHeight [issueScale, issueDate] []).1 0 "height" = some "990" ∧
    issueScale.suggestedValue = some "5.00 m" ∧
    dfGet (apply_fixes dfHeight [issueScale] []).1 0 "height" = some "5.00 m" := by
  refine ⟨rfl, rfl, by decide, rfl, ?_, rfl, ?_⟩ <;> rfl

/-- C1 amended: among the issues handled by the non-unit fix loop, first
write wins — the first issue of the selected list that is applicable to a
cell (targets it, in range, not a `ScaleMismatch`, column unprotected)
determines the cell's final value: a null-ish suggestion clears the cell,
any other writes the suggested string; every later issue on that cell is
skipped through `fixed_cells`.  (`ScaleMismatch` issues are excluded: they
are serviced by the earlier wholesale pass, which recomputes cell text from
the original value and whose result a later-listed non-unit issue on the
same cell overwrites.)  The output is a function of the dataframe, the
issue list, and the unit preferences, hence deterministic. -/
theorem apply_fixes_first_write_wins (df0 : Df) (prefs : List (String × String))
    (pre post : List Issue) (i : Issue) (r : ℕ) (c : String)
    (hrect : dfRect df0 = true)
    (happ : appliesAt df0.cols df0.rows.length i r c)
    (hpre : ∀ j ∈ pre, ¬ appliesAt df0.cols df0.rows.length j r c) :
    dfGet (apply_fixes df0 (pre ++ i :: post) prefs).1 r c = issueWriteValue i := by
  have hcols : (applyUnitPass df0 (standardizeTargets (pre ++ i :: post) prefs)).1.cols
      = df0.cols := applyUnitPassFold_cols _ _ _
  have hlen : (applyUnitPass df0 (standardizeTargets (pre ++ i :: post) prefs)).1.rows.length
      = df0.rows.length := applyUnitPassFold_len _ _ _
  show dfGet (applyIssueLoop (pre ++ i :: post)
      ((applyUnitPass df0 (standardizeTargets (pre ++ i :: post) prefs)).1,
       (applyUnitPass df0 (standardizeTargets (pre ++ i :: post) prefs)).2, [])).1 r c
    = issueWriteValue i
  refine applyIssueLoop_first_write pre post i _ r c ?_ ?_ ?_ ?_
  · exact applyUnitPassFold_rect _ _ _ hrect
  · show appliesAt (applyUnitPass df0 (standardizeTargets (pre ++ i :: post) prefs)).1.cols
        (applyUnitPass df0 (standardizeTargets (pre ++ i :: post) prefs)).1.rows.length i r c
    rw [hcols, hlen]
    exact happ
  · intro j hj
    show ¬ appliesAt (applyUnitPass df0 (standardizeTargets (pre ++ i :: post) prefs)).1.cols
        (applyUnitPass df0 (standardizeTargets (pre ++ i :: post) prefs)).1.rows.length j r c
    rw [hcols, hlen]
    exact hpre j hj
  · exact List.not_mem_nil _

/-- C1 witness: a single applicable `DateFormatting` issue writes its
suggestion into the targeted cell. -/
theorem apply_fixes_first_write_wins_witness :
    dfGet (apply_fixes dfHeight ([] ++ issueDate :: []) []).1 0 "height"
      = issueWriteValue issueDate :=
  apply_fixes_first_write_wins dfHeight [] [] [] issueDate 0 "height"
    (by decide) (by decide) (fun j hj => absurd hj (List.not_mem_nil j))

/-! ## C2 — protected columns and the wholesale unit pass -/

/-- C2 counterexample: a `ScaleMismatch` issue aimed at the protected
`city` column drives the wholesale standardization pass, which performs no
protected-column check: the bare numeric city cell `"5"` is rewritten to
`"5.00 cm"`, so the column is not left bit-identical. -/
theorem apply_protected_city_cex :
    isCityColumn "city" = true ∧
    isProtectedColumn "city" = true ∧
    dfGet dfCity 0 "city" = some "5" ∧
    dfGet (apply_fixes dfCity [issueCityScale] []).1 0 "city" = some "5.00 cm" := by
  refine ⟨rfl, rfl, rfl, ?_⟩
  rfl

/-- C2 amended: a protected (personal-name or geographic) column is left
bit-identical by `ApplyFixes` for every issue list that gives the column no
standardization target — that is, no selected `ScaleMismatch` issue names
it and no unit preference names it.  (The non-unit fix loop never touches a
protected column; only the wholesale unit pass can.) -/
theorem apply_fixes_protected_unchanged (df0 : Df) (issues : List Issue)
    (prefs : List (String × String)) (c : String) (r : ℕ)
    (hprot : isProtectedColumn c = true)
    (hfree : (standardizeTargets issues prefs).lookup c = none) :
    dfGet (apply_fixes df0 issues prefs).1 r c = dfGet df0 r c := by
  show dfGet (applyIssueLoop issues
      ((applyUnitPass df0 (standardizeTargets issues prefs)).1,
       (applyUnitPass df0 (standardizeTargets issues prefs)).2, [])).1 r c
    = dfGet df0 r c
  rw [applyIssueLoop_protected issues _ r c hprot]
  exact applyUnitPassFold_get df0 _ r c (df0, []) (lookup_none_keys c _ hfree)

/-- C2 witness: a non-unit issue aimed at `city` leaves the protected
column bit-identical. -/
theorem apply_fixes_protected_unchanged_witness :
    dfGet (apply_fixes dfCity [issueCityGeo] []).1 0 "city" = dfGet dfCity 0 "city" :=
  apply_fixes_protected_unchanged dfCity [issueCityGeo] [] "city" 0 (by decide) (by decide)

/-! ## C4 — temporal paradox clears the job-start cell -/

/-- C4: whenever both the birth cell and the job-start cell are present and
parse, and the job-start date is strictly earlier, the Logic agent's
job-before-birth check emits a `TemporalParadox` on the job-start column
with a null suggestion at confidence 0.95; applying that issue (to an
in-range, unprotected job-start column) sets the cell to null and records
the change as `"null"` in the change map. -/
theorem temporal_paradox_null (birthCol jobCol : String) (rowIdx : ℕ) (row : Row)
    (b j biso jiso : String) (cb cj : PyNum)
    (hb : rowGet row birthCol = some b) (hj : rowGet row jobCol = some j)
    (hbne : b ≠ "") (hjne : j ≠ "")
    (hpb : parse_date b = some (biso, cb)) (hpj : parse_date j = some (jiso, cj))
    (hlt : strLt jiso biso = true)
    (df : Df) (hcol : jobCol ∈ df.cols) (hrow : rowIdx < df.rows.length)
    (hprot : isProtectedColumn jobCol = false) :
    logicJobBirthIssue birthCol jobCol rowIdx row =
      some ⟨some rowIdx, jobCol, "TemporalParadox", j, none, pq 95 100⟩ ∧
    (pq 95 100).val = 95 / 100 ∧
    dfGet (apply_fixes df [⟨some rowIdx, jobCol, none, "TemporalParadox"⟩] []).1
        rowIdx jobCol = none ∧
    (apply_fixes df [⟨some rowIdx, jobCol, none, "TemporalParadox"⟩] []).2 =
      [((rowIdx, jobCol), (cellStr (dfGet df rowIdx jobCol), "null"))] := by
  have hemit : logicJobBirthIssue birthCol jobCol rowIdx row =
      some ⟨some rowIdx, jobCol, "TemporalParadox", j, none, pq 95 100⟩ := by
    unfold logicJobBirthIssue
    rw [hb, hj]
    simp only
    rw [if_pos ⟨hbne, hjne⟩, hpb, hpj]
    simp only
    rw [if_pos hlt]
  have htargets :
      standardizeTargets [⟨some (rowIdx : ℤ), some jobCol, none, "TemporalParadox"⟩] [] = [] := rfl
  have hunit : applyUnitPass df [] = (df, []) := rfl
  have hwrite := applyIssueStep_writes (df, ([] : Changed), ([] : List (ℕ × String)))
    (⟨some (rowIdx : ℤ), some jobCol, none, "TemporalParadox"⟩ : Issue) rowIdx jobCol
    ⟨rfl, rfl, hcol, hrow, by simp, hprot⟩ (List.not_mem_nil _)
  refine ⟨hemit, by norm_num [PyNum.val, pq], ?_, ?_⟩
  · show dfGet (applyIssueLoop [⟨some (rowIdx : ℤ), some jobCol, none, "TemporalParadox"⟩]
        ((applyUnitPass df (standardizeTargets
            [⟨some (rowIdx : ℤ), some jobCol, none, "TemporalParadox"⟩] [])).1,
         (applyUnitPass df (standardizeTargets
            [⟨some (rowIdx : ℤ), some jobCol, none, "TemporalParadox"⟩] [])).2, [])).1
        rowIdx jobCol = none
    rw [htargets, hunit]
    show dfGet (applyIssueStep (df, ([] : Changed), ([] : List (ℕ × String)))
        ⟨some (rowIdx : ℤ), some jobCol, none, "TemporalParadox"⟩).1 rowIdx jobCol = none
    rw [hwrite]
    exact dfGet_dfSet_none df rowIdx jobCol
  · show (applyIssueLoop [⟨some (rowIdx : ℤ), some jobCol, none, "TemporalParadox"⟩]
        ((applyUnitPass df (standardizeTargets
            [⟨some (rowIdx : ℤ), some jobCol, none, "TemporalParadox"⟩] [])).1,
         (applyUnitPass df (standardizeTargets
            [⟨some (rowIdx : ℤ), some jobCol, none, "TemporalParadox"⟩] [])).2, [])).2.1
      = [((rowIdx, jobCol), (cellStr (dfGet df rowIdx jobCol), "null"))]
    rw [htargets, hunit]
    show (applyIssueStep (df, ([] : Changed), ([] : List (ℕ × String)))
        ⟨some (rowIdx : ℤ), some jobCol, none, "TemporalParadox"⟩).2.1
      = [((rowIdx, jobCol), (cellStr (dfGet df rowIdx jobCol), "null"))]
    rw [hwrite]
    rfl

/-- C4 witness: the spec's example `birth = 2000-01-01`,
`job_start = 1990-05-01` emits the null-suggestion issue, and applying it
empties the `job_start` cell, recording `"null"`. -/
theorem temporal_paradox_null_witness :
    logicJobBirthIssue "birth_date" "job_start" 0 rowJob =
      some ⟨some 0, "job_start", "TemporalParadox", "1990-05-01", none, pq 95 100⟩ ∧
    (pq 95 100).val = 95 / 100 ∧
    dfGet (apply_fixes dfJob [⟨some 0, some "job_start", none, "TemporalParadox"⟩] []).1
        0 "job_start" = none ∧
    (apply_fixes dfJob [⟨some 0, some "job_start", none, "TemporalParadox"⟩] []).2 =
      [((0, "job_start"), (cellStr (dfGet dfJob 0 "job_start"), "null"))] :=
  temporal_paradox_null "birth_date" "job_start" 0 rowJob
    "2000-01-01" "1990-05-01" "2000-01-01" "1990-05-01" (pq 9 10) (pq 9 10)
    rfl rfl (by decide) (by decide) rfl rfl (by decide)
    dfJob (by decide) (by decide) (by decide)

/-! ## C10 — `company_name` contains the keyword `name` -/

/-- C10: the protected-column test is substring containment on the
lowercased column name, `company_name` contains `name`, so the non-unit fix
loop — the loop that would apply `CompanyValidation`, `CompanyMismatch` or
`EntityResolution` fixes — leaves a column named `company_name` unchanged
for every issue list and every starting state. -/
theorem company_name_never_fixed (issues : List Issue)
    (st : Df × Changed × List (ℕ × String)) (r : ℕ) :
    strContains (pyLower "company_name") "name" = true ∧
    isNameColumn "company_name" = true ∧
    dfGet (applyIssueLoop issues st).1 r "company_name" = dfGet st.1 r "company_name" := by
  refine ⟨rfl, rfl, ?_⟩
  exact applyIssueLoop_protected issues st r "company_name" rfl

end DQ
